import Mathlib

/-!
Verification of gcsfuse: token source, read metrics, and the filesystem adapter contracts.

A shallow embedding of

* `internal/auth/token_source.go` (`newProxyTokenSource`, `proxyTokenSource.Token`,
  `NewTokenSourceFromURL`),
* `metrics/telemetry.go` (`MetricHandle`, `CaptureGCSReadMetrics`),
* the range arithmetic of `tools/integration_tests/gzip/read_gzip_test.go`
  (`verifyRangedRead`),
* the scenarios of the `unfinalized_object`, `operations` and `gzip` integration tests,
  run against a model of the filesystem adapter.

Part I holds the definitions, Part II the theorems.
-/

namespace GcsFuse

/-! ## Part I. Definitions -/

/-- Byte strings. -/
abbrev Bytes := List UInt8

/-! ### `internal/auth/token_source.go` -/

namespace Auth

/-- The type `context.Context`; the token source only stores it. -/
abbrev Context := Nat

/-- The fields of `net/url.URL` read by `newProxyTokenSource`. -/
structure URL where
  Scheme : String
  Path : String
  RawQuery : String
  deriving DecidableEq, Repr

/-- Times, as a count of clock ticks. -/
abbrev Time := Int

/-- The type `oauth2.Token`: the bearer token and its expiry (`none` is the zero time). -/
structure Token where
  AccessToken : String
  TokenType : String
  RefreshToken : String
  Expiry : Option Time
  deriving DecidableEq, Repr

/-- The transport of an `http.Client`: `std` is the nil `Transport` field (the default
transport); `dialer network address` is an `http.Transport` whose `DialContext` ignores
the network and address it is asked for and dials `address` over `network`. -/
inductive Transport where
  | std
  | dialer (network : String) (address : String)
  deriving DecidableEq, Repr

/-- The type `http.Client`, reduced to the one field the source sets. -/
structure Client where
  Transport : Transport
  deriving DecidableEq, Repr

/-- A response body as an `io.Reader`: the bytes it yields, the error that ends the
stream (`none` is a clean end of file), and whether that error is returned by the same
`Read` call that returns the last bytes (an `io.Reader` may do either) or by a later
call. -/
structure Reader where
  data : Bytes
  err : Option String
  errWithLastBytes : Bool
  deriving DecidableEq, Repr

/-- The type `http.Response`, reduced to the fields `Token` reads. -/
structure Response where
  StatusCode : Int
  Body : Reader
  deriving DecidableEq, Repr

/-- Go `error` values met in `token_source.go`. `lib` is an error returned by a library
call, `wrap` is `fmt.Errorf` with a `%w` verb, `retrieve` is `*oauth2.RetrieveError`. -/
inductive Error where
  | lib (msg : String)
  | wrap (msg : String) (cause : Error)
  | retrieve (Response : Response) (Body : Bytes)
  deriving DecidableEq, Repr

/-- The struct `proxyTokenSource`. -/
structure proxyTokenSource where
  ctx : Context
  endpoint : String
  client : Client
  deriving DecidableEq, Repr

/-- Values of the interface `oauth2.TokenSource` that `newProxyTokenSource` can return:
the bare `proxyTokenSource`, or the result of `oauth2.ReuseTokenSource t src`, which
holds the last token `t` and the wrapped source. -/
inductive TokenSource where
  | proxy (ts : proxyTokenSource)
  | reuse (t : Option Token) (src : TokenSource)
  deriving DecidableEq, Repr

/-- The library functions `token_source.go` calls, which are not part of the repository:
`url.Parse`, `json.Unmarshal` into an `oauth2.Token`, and `(*oauth2.Token).Valid`
evaluated at a time. -/
structure Lib where
  urlParse : String → Except Error URL
  jsonUnmarshal : Bytes → Except Error Token
  valid : Token → Time → Bool

/-- One HTTP GET as seen by the network: the transport it went over and the URL. -/
structure Request where
  via : Transport
  url : String
  deriving DecidableEq, Repr

/-- The network. `server` answers a request given the requests served before it,
`served` is the log of the requests issued so far. -/
structure Net where
  server : List Request → Request → Except Error Response
  served : List Request

/-- The call `client.Get url`: the request is issued (and logged) and answered. -/
def Client.Get (c : Client) (url : String) (n : Net) : Except Error Response × Net :=
  (n.server n.served ⟨c.Transport, url⟩, { n with served := n.served ++ [⟨c.Transport, url⟩] })

/-- The call `io.ReadAll (io.LimitReader r limit)`. `LimitedReader.Read` answers end of
file without asking the stream once `limit` bytes have been read, and otherwise passes on
what the stream's `Read` returns; `ReadAll` stops at the first error and turns end of file
into a nil error. So: a stream longer than the limit (or a limit of 0) gives the first
`limit` bytes and no error; a stream of exactly `limit` bytes gives them with no error
when its closing error comes on a later call, and with that error when it comes with the
last bytes; a shorter stream gives all its bytes and its closing error. -/
def readAllLimit (r : Reader) (limit : Nat) : Bytes × Option Error :=
  if limit < r.data.length ∨ limit = 0 then (r.data.take limit, none)
  else if r.data.length = limit ∧ r.errWithLastBytes = false then (r.data, none)
  else (r.data, r.err.map Error.lib)

/-- A Go result pair `(token *oauth2.Token, err error)`. -/
structure TokenResult where
  token : Option Token
  err : Option Error
  deriving DecidableEq, Repr

/-- A Go result pair `(ts oauth2.TokenSource, err error)`. -/
structure SourceResult where
  ts : Option TokenSource
  err : Option Error
  deriving DecidableEq, Repr

/-- The function `newProxyTokenSource` (token_source.go, lines 31-62). -/
def newProxyTokenSource (lib : Lib) (ctx : Context) (endpoint : String)
    (reuseTokenFromUrl : Bool) : SourceResult :=
  match lib.urlParse endpoint with
  | .error err =>
    ⟨none, some (.wrap ("newProxyTokenSource cannot parse endpoint " ++ endpoint) err)⟩
  | .ok u =>
    let client : Client :=
      if u.Scheme = "unix" then ⟨.dialer u.Scheme u.Path⟩ else ⟨.std⟩
    let endpoint := if u.Scheme = "unix" then "http://unix?" ++ u.RawQuery else endpoint
    let ts : proxyTokenSource := { ctx := ctx, endpoint := endpoint, client := client }
    if reuseTokenFromUrl then ⟨some (.reuse none (.proxy ts)), none⟩
    else ⟨some (.proxy ts), none⟩

/-- The method `proxyTokenSource.Token` (token_source.go, lines 70-99). -/
def proxyTokenSource.Token (lib : Lib) (ts : proxyTokenSource) (n : Net) :
    TokenResult × Net :=
  match ts.client.Get ts.endpoint n with
  | (.error err, n1) => (⟨none, some (.wrap "proxyTokenSource cannot fetch token" err)⟩, n1)
  | (.ok resp, n1) =>
    match readAllLimit resp.Body (2 ^ 20) with
    | (_, some err) => (⟨none, some (.wrap "proxyTokenSource cannot load body" err)⟩, n1)
    | (body, none) =>
      if resp.StatusCode < 200 ∨ resp.StatusCode ≥ 300 then
        (⟨none, some (.retrieve resp body)⟩, n1)
      else
        match lib.jsonUnmarshal body with
        | .error err => (⟨none, some (.wrap "proxyTokenSource cannot decode body" err)⟩, n1)
        | .ok token => (⟨some token, none⟩, n1)

/-- The function `NewTokenSourceFromURL` (token_source.go, lines 101-103). -/
def NewTokenSourceFromURL (lib : Lib) (ctx : Context) (tokenUrl : String)
    (reuseTokenFromUrl : Bool) : SourceResult :=
  newProxyTokenSource lib ctx tokenUrl reuseTokenFromUrl

/-- Modelled from the spec: `oauth2.ReuseTokenSource` comes from golang.org/x/oauth2 and
is not under src/. The Token Provider "exposes a single operation
`getToken() -> (token, expiry)` ... optionally cached/reused across calls": a reusing
source hands out the token it holds while that token is valid, and otherwise asks the
wrapped source and keeps the token it gets. A bare `proxyTokenSource` runs its own
`Token` method. The result is the pair returned, the source after the call and the
network after the call. -/
def TokenSource.Token (lib : Lib) (now : Time) :
    TokenSource → Net → TokenResult × TokenSource × Net
  | .proxy ts, n =>
    let r := ts.Token lib n
    (r.1, .proxy ts, r.2)
  | .reuse t src, n =>
    if t.any (fun tok => lib.valid tok now) then (⟨t, none⟩, .reuse t src, n)
    else
      let r := TokenSource.Token lib now src n
      match r.1.err with
      | some err => (⟨none, some err⟩, .reuse t r.2.1, r.2.2)
      | none => (⟨r.1.token, none⟩, .reuse r.1.token r.2.1, r.2.2)

/-- The results of `k` successive `Token` calls on a source, the `i`-th made at time
`clock i`, with the source and the network threaded through. -/
def tokenCalls (lib : Lib) (clock : Nat → Time) :
    Nat → TokenSource → Net → List TokenResult × TokenSource × Net
  | 0, s, n => ([], s, n)
  | k + 1, s, n =>
    let r := tokenCalls lib clock k s n
    let c := TokenSource.Token lib (clock k) r.2.1 r.2.2
    (r.1 ++ [c.1], c.2.1, c.2.2)

/-- The `proxyTokenSource` that issues the requests of a token source. -/
def TokenSource.underlying : TokenSource → proxyTokenSource
  | .proxy ts => ts
  | .reuse _ src => src.underlying

/-- The request a `proxyTokenSource` issues on each `Token` call. -/
def proxyTokenSource.request (ts : proxyTokenSource) : Request :=
  ⟨ts.client.Transport, ts.endpoint⟩

/-- The UTF-8 bytes of the JSON object with the members "access_token": "tok" and
"token_type": "Bearer". -/
def sampleBody : Bytes :=
  [123, 34, 97, 99, 99, 101, 115, 115, 95, 116, 111, 107, 101, 110, 34, 58, 34, 116, 111,
   107, 34, 44, 34, 116, 111, 107, 101, 110, 95, 116, 121, 112, 101, 34, 58, 34, 66, 101,
   97, 114, 101, 114, 34, 125]

/-- A small stand-in for the library, used to run the definitions on concrete inputs: it
knows two endpoints and one JSON body and rejects everything else; a token is valid when
its access token is not empty and its expiry, if any, is at least 10 ticks away. -/
def sampleLib : Lib where
  urlParse s :=
    if s = "unix:///run/token.sock?audience=gcs" then
      .ok ⟨"unix", "/run/token.sock", "audience=gcs"⟩
    else if s = "https://proxy.example/token" then
      .ok ⟨"https", "/token", ""⟩
    else .error (.lib "invalid URL")
  jsonUnmarshal body :=
    if body = sampleBody then .ok ⟨"tok", "Bearer", "", none⟩
    else .error (.lib "invalid character looking for beginning of value")
  valid t now :=
    match t.Expiry with
    | none => t.AccessToken ≠ ""
    | some e => t.AccessToken ≠ "" ∧ now + 10 ≤ e

/-- A network whose server answers every request with status 200 and the sample body. -/
def sampleNet : Net where
  server _ _ := .ok ⟨200, ⟨sampleBody, none, false⟩⟩
  served := []

/-- A network whose server answers every request with the given status code and body. -/
def statusNet (code : Int) (data : Bytes) : Net where
  server _ _ := .ok ⟨code, ⟨data, none, false⟩⟩
  served := []

end Auth

/-! ### `metrics/telemetry.go` -/

namespace Metrics

/-- The type `context.Context`, passed through to the handle. -/
abbrev Context := Nat

/-- The type `time.Duration` (an int64 count of nanoseconds). -/
abbrev Duration := Int

/-- Pair of CacheHit and ReadType attributes. -/
structure CacheHitReadType where
  CacheHit : Bool
  ReadType : String
  deriving DecidableEq, Repr

/-- Pair of FSOp and ErrorCategory attributes. -/
structure FSOpsErrorCategory where
  FSOps : String
  ErrorCategory : String
  deriving DecidableEq, Repr

/-- The interface `MetricHandle` (the union of `GCSMetricHandle`, `OpsMetricHandle` and
`FileCacheMetricHandle`) over an implementation whose state has type `σ`. No method has a
result: each one only moves the implementation to a new state. -/
structure MetricHandle (σ : Type) where
  GCSReadBytesCount : Context → Int → σ → σ
  GCSReaderCount : Context → Int → String → σ → σ
  GCSRequestCount : Context → Int → String → σ → σ
  GCSRequestLatency : Context → Duration → String → σ → σ
  GCSReadCount : Context → Int → String → σ → σ
  GCSDownloadBytesCount : Context → Int → String → σ → σ
  GCSRetryCount : Context → Int → String → σ → σ
  OpsCount : Context → Int → String → σ → σ
  OpsLatency : Context → Duration → String → σ → σ
  OpsErrorCount : Context → Int → FSOpsErrorCategory → σ → σ
  FileCacheReadCount : Context → Int → CacheHitReadType → σ → σ
  FileCacheReadBytesCount : Context → Int → String → σ → σ
  FileCacheReadLatency : Context → Duration → Bool → σ → σ

/-- The bucket boundaries given to `metric.WithExplicitBucketBoundaries` in the variable
`defaultLatencyDistribution` (telemetry.go, line 27), in the order written. The
boundaries are float64 values given by integer literals; each is far below 2^53, so it is
represented exactly and compares as the integer does. -/
def defaultLatencyDistribution : List Nat :=
  [1, 2, 3, 4, 5, 6, 8, 10, 13, 16, 20, 25, 30, 40, 50, 65, 80, 100, 130, 160, 200, 250,
   300, 400, 500, 650, 800, 1000, 2000, 5000, 10000, 20000, 50000, 100000]

/-- The function `CaptureGCSReadMetrics` (telemetry.go, lines 77-80). -/
def CaptureGCSReadMetrics {σ : Type} (ctx : Context) (metricHandle : MetricHandle σ)
    (readType : String) (requestedDataSize : Int) (s : σ) : σ :=
  let s1 := metricHandle.GCSReadCount ctx 1 readType s
  metricHandle.GCSDownloadBytesCount ctx requestedDataSize readType s1

/-- One method call on a `MetricHandle`, with its arguments. -/
inductive Call where
  | GCSReadBytesCount (ctx : Context) (inc : Int)
  | GCSReaderCount (ctx : Context) (inc : Int) (ioMethod : String)
  | GCSRequestCount (ctx : Context) (inc : Int) (gcsMethod : String)
  | GCSRequestLatency (ctx : Context) (latency : Duration) (gcsMethod : String)
  | GCSReadCount (ctx : Context) (inc : Int) (readType : String)
  | GCSDownloadBytesCount (ctx : Context) (inc : Int) (readType : String)
  | GCSRetryCount (ctx : Context) (inc : Int) (gcsRetryErr : String)
  | OpsCount (ctx : Context) (inc : Int) (fsOp : String)
  | OpsLatency (ctx : Context) (latency : Duration) (fsOp : String)
  | OpsErrorCount (ctx : Context) (inc : Int) (attrs : FSOpsErrorCategory)
  | FileCacheReadCount (ctx : Context) (inc : Int) (attrs : CacheHitReadType)
  | FileCacheReadBytesCount (ctx : Context) (inc : Int) (readType : String)
  | FileCacheReadLatency (ctx : Context) (latency : Duration) (cacheHit : Bool)
  deriving DecidableEq, Repr

/-- The handle that only records, in order, the calls made on it. -/
def recorder : MetricHandle (List Call) where
  GCSReadBytesCount ctx inc log := log ++ [.GCSReadBytesCount ctx inc]
  GCSReaderCount ctx inc x log := log ++ [.GCSReaderCount ctx inc x]
  GCSRequestCount ctx inc x log := log ++ [.GCSRequestCount ctx inc x]
  GCSRequestLatency ctx d x log := log ++ [.GCSRequestLatency ctx d x]
  GCSReadCount ctx inc x log := log ++ [.GCSReadCount ctx inc x]
  GCSDownloadBytesCount ctx inc x log := log ++ [.GCSDownloadBytesCount ctx inc x]
  GCSRetryCount ctx inc x log := log ++ [.GCSRetryCount ctx inc x]
  OpsCount ctx inc x log := log ++ [.OpsCount ctx inc x]
  OpsLatency ctx d x log := log ++ [.OpsLatency ctx d x]
  OpsErrorCount ctx inc x log := log ++ [.OpsErrorCount ctx inc x]
  FileCacheReadCount ctx inc x log := log ++ [.FileCacheReadCount ctx inc x]
  FileCacheReadBytesCount ctx inc x log := log ++ [.FileCacheReadBytesCount ctx inc x]
  FileCacheReadLatency ctx d x log := log ++ [.FileCacheReadLatency ctx d x]

/-- Performing one recorded call on a handle. -/
def Call.run {σ : Type} (h : MetricHandle σ) : Call → σ → σ
  | .GCSReadBytesCount ctx inc => h.GCSReadBytesCount ctx inc
  | .GCSReaderCount ctx inc x => h.GCSReaderCount ctx inc x
  | .GCSRequestCount ctx inc x => h.GCSRequestCount ctx inc x
  | .GCSRequestLatency ctx d x => h.GCSRequestLatency ctx d x
  | .GCSReadCount ctx inc x => h.GCSReadCount ctx inc x
  | .GCSDownloadBytesCount ctx inc x => h.GCSDownloadBytesCount ctx inc x
  | .GCSRetryCount ctx inc x => h.GCSRetryCount ctx inc x
  | .OpsCount ctx inc x => h.OpsCount ctx inc x
  | .OpsLatency ctx d x => h.OpsLatency ctx d x
  | .OpsErrorCount ctx inc x => h.OpsErrorCount ctx inc x
  | .FileCacheReadCount ctx inc x => h.FileCacheReadCount ctx inc x
  | .FileCacheReadBytesCount ctx inc x => h.FileCacheReadBytesCount ctx inc x
  | .FileCacheReadLatency ctx d x => h.FileCacheReadLatency ctx d x

/-- Performing a list of recorded calls on a handle, first to last. -/
def runCalls {σ : Type} (h : MetricHandle σ) (calls : List Call) (s : σ) : σ :=
  calls.foldl (fun acc c => c.run h acc) s

end Metrics

/-! ### `tools/integration_tests/gzip/read_gzip_test.go`: range arithmetic -/

namespace Gzip

/-- The local `readSize` of `verifyRangedRead` (line 79). Object sizes are non-negative
and the quotient cannot overflow an int64. -/
def readSize (gcsObjectSize : Nat) : Nat := gcsObjectSize / 10

/-- The local `readOffset` of `verifyRangedRead` (line 80). -/
def readOffset (gcsObjectSize : Nat) : Nat := readSize gcsObjectSize / 10

/-- The offset multipliers of the loop of `verifyRangedRead` (line 93). -/
def offsetMultipliers : List Nat := [1, 3, 5, 7, 9]

/-- A half-open byte range `[start, stop)`. -/
structure ByteRange where
  start : Nat
  stop : Nat
  deriving DecidableEq, Repr

/-- The range read for one multiplier (lines 94 and 101): `readSize` bytes at offset
`offsetMultiplier * readOffset`. -/
def rangeFor (gcsObjectSize offsetMultiplier : Nat) : ByteRange :=
  ⟨offsetMultiplier * readOffset gcsObjectSize,
   offsetMultiplier * readOffset gcsObjectSize + readSize gcsObjectSize⟩

/-- The five ranges read by `verifyRangedRead`, in loop order. -/
def readRanges (gcsObjectSize : Nat) : List ByteRange :=
  offsetMultipliers.map (rangeFor gcsObjectSize)

/-- A byte offset lies in a half-open range. -/
def ByteRange.Mem (x : Nat) (r : ByteRange) : Prop := r.start ≤ x ∧ x < r.stop

instance (x : Nat) (r : ByteRange) : Decidable (r.Mem x) := by
  unfold ByteRange.Mem; infer_instance

/-- Two ranges are disjoint when no byte offset lies in both. -/
def ByteRange.DisjointFrom (r s : ByteRange) : Prop := ∀ x, ¬ (r.Mem x ∧ s.Mem x)

end Gzip

/-! ### The filesystem adapter: error taxonomy and backend object API

The adapter itself (the code behind the mount that the integration tests exercise) is not
among the source files; it is modelled from the specification. -/

namespace Fs

/-- Modelled from the spec: the caller-visible error taxonomy of section 7 (the adapter's
error codes are not under src/; the tests name them `syscall.ENOENT`, `ESTALE`, `EIO`):
not-found, stale-handle, access-denied, io-error. -/
inductive Errno where
  | ENOENT
  | ESTALE
  | EACCES
  | EIO
  deriving DecidableEq, Repr

/-- Modelled from the spec: the backend status categories named in section 4.6 (the
backend's status type is not under src/). `preconditionFailed` is a precondition or
generation mismatch, `supersededGeneration` an operation against a superseded generation,
`dualWriter` a partial dual-writer conflict; `transport`, `protocol` and `other` stand for
every remaining failure. -/
inductive Status where
  | notFound
  | preconditionFailed
  | supersededGeneration
  | permissionDenied
  | transport
  | protocol
  | dualWriter
  | other (code : Nat)
  deriving DecidableEq, Repr

/-- Modelled from the spec: the Error Mapper of section 4.6, which is not under src/.
"not-found → no such entry; precondition/generation-mismatch or operations against a
superseded generation → stale handle; permission-denied → access denied; any other
transport/protocol failure or partial dual-writer conflict → I/O error". -/
def errorMapper : Status → Errno
  | .notFound => Errno.ENOENT
  | .preconditionFailed => Errno.ESTALE
  | .supersededGeneration => Errno.ESTALE
  | .permissionDenied => Errno.EACCES
  | .transport => Errno.EIO
  | .protocol => Errno.EIO
  | .dualWriter => Errno.EIO
  | .other _ => Errno.EIO

/-- A path under the mount, as the tests build it with `path.Join dir name`; the object of
the same path in the bucket has the same key. -/
structure Path where
  dir : String
  name : String
  deriving DecidableEq, Repr

/-- Modelled from the spec: a live backend write-stream (section 3, unfinalized-stream
mode): the writer that owns it and the bytes appended so far. -/
structure WriteStream where
  owner : Nat
  appended : Bytes
  deriving DecidableEq, Repr

/-- Modelled from the spec: one named backend object (sections 3 and 6). `content` is the
content of its last finalized generation (empty when nothing was finalized yet), `gzip`
says whether it is stored with gzip content-encoding, `stream` is the live write-stream
when the object is unfinalized. -/
structure Object where
  generation : Nat
  metageneration : Nat
  content : Bytes
  gzip : Bool
  stream : Option WriteStream
  deriving DecidableEq, Repr

/-- Modelled from the spec: the bucket behind the backend object API (section 6). -/
structure Backend where
  objects : Path → Option Object
  nextGeneration : Nat

/-- Modelled from the spec: the result of `statObject` (section 6; modification time
left out). `finalized` tells whether the object has no live write-stream, `writer` is the
writer that holds the live stream of an unfinalized object. -/
structure ObjectStat where
  generation : Nat
  metageneration : Nat
  size : Nat
  gzip : Bool
  finalized : Bool
  writer : Option Nat
  deriving DecidableEq, Repr

/-- The bucket with the object at `p` replaced (or removed, for `none`). -/
def Backend.set (b : Backend) (p : Path) (o : Option Object) : Backend :=
  { b with objects := fun q => if q = p then o else b.objects q }

/-- The bucket after handing out its next generation number. -/
def Backend.bump (b : Backend) : Backend :=
  { b with nextGeneration := b.nextGeneration + 1 }

/-- Modelled from the spec: `statObject(name) -> (generation, metageneration, size,
mtime)` (section 6). The size is that of the last finalized content: an unfinalized
object "reports size 0 (or last-finalized size)". -/
def Backend.statObject (b : Backend) (p : Path) : Except Status ObjectStat :=
  match b.objects p with
  | none => .error .notFound
  | some o =>
    .ok ⟨o.generation, o.metageneration, o.content.length, o.gzip, o.stream.isNone,
      o.stream.map (fun s => s.owner)⟩

/-- Modelled from the spec: `readRange(name, generation, offset, length) -> bytes`
(section 6), over the stored bytes of the given generation. -/
def Backend.readRange (b : Backend) (p : Path) (generation offset length : Nat) :
    Except Status Bytes :=
  match b.objects p with
  | none => .error .notFound
  | some o =>
    if o.generation = generation then .ok ((o.content.drop offset).take length)
    else .error .supersededGeneration

/-- Modelled from the spec: `createObject(name, bytes) -> generation` (section 6), a full
overwrite producing a new generation. -/
def Backend.createObject (b : Backend) (p : Path) (bytes : Bytes) :
    Except Status (Nat × Backend) :=
  .ok (b.nextGeneration, (b.set p (some ⟨b.nextGeneration, 1, bytes, false, none⟩)).bump)

/-- Modelled from the spec: `openWriteStream(name) -> streamHandle` (section 6) for the
writer `client`. "At most one writer may hold the live stream for a given object-name": a
second stream is refused as a dual-writer conflict. A new name becomes visible at once,
with size 0; an existing object keeps showing its last finalized content. -/
def Backend.openWriteStream (b : Backend) (client : Nat) (p : Path) : Except Status Backend :=
  match b.objects p with
  | none => .ok (b.set p (some ⟨b.nextGeneration, 1, [], false, some ⟨client, []⟩⟩)).bump
  | some o =>
    match o.stream with
    | some _ => .error .dualWriter
    | none => .ok (b.set p (some { o with stream := some ⟨client, []⟩ }))

/-- Modelled from the spec: `appendStream(streamHandle, bytes)` (section 6). Only the
owner of the live stream may append. -/
def Backend.appendStream (b : Backend) (client : Nat) (p : Path) (bytes : Bytes) :
    Except Status Backend :=
  match b.objects p with
  | none => .error .supersededGeneration
  | some o =>
    match o.stream with
    | none => .error .preconditionFailed
    | some s =>
      if s.owner = client then
        .ok (b.set p (some { o with stream := some { s with appended := s.appended ++ bytes } }))
      else .error .dualWriter

/-- Modelled from the spec: `finalizeStream(streamHandle) -> generation` (section 6): the
appended bytes become the content of a new generation, "at which point its true size and
a new generation become visible". -/
def Backend.finalizeStream (b : Backend) (client : Nat) (p : Path) :
    Except Status (Nat × Backend) :=
  match b.objects p with
  | none => .error .supersededGeneration
  | some o =>
    match o.stream with
    | none => .error .preconditionFailed
    | some s =>
      if s.owner = client then
        .ok (b.nextGeneration,
             (b.set p (some ⟨b.nextGeneration, 1, s.appended, false, none⟩)).bump)
      else .error .dualWriter

/-- Modelled from the spec: `copyObject(srcName, srcGeneration, dstName) -> generation`
(section 6). -/
def Backend.copyObject (b : Backend) (src : Path) (srcGeneration : Nat) (dst : Path) :
    Except Status (Nat × Backend) :=
  match b.objects src with
  | none => .error .notFound
  | some o =>
    if o.generation = srcGeneration then
      .ok (b.nextGeneration,
           (b.set dst (some ⟨b.nextGeneration, 1, o.content, o.gzip, none⟩)).bump)
    else .error .preconditionFailed

/-- Modelled from the spec: `deleteObject(name, generation)` (section 6). -/
def Backend.deleteObject (b : Backend) (p : Path) (generation : Nat) : Except Status Backend :=
  match b.objects p with
  | none => .error .notFound
  | some o =>
    if o.generation = generation then .ok (b.set p none)
    else .error .preconditionFailed

/-- Modelled from the spec: a whole-object read of the stored bytes by a storage client
outside the mount (the tests' helpers `client.ValidateObjectContentsFromGCS`, which is
not under src/, and `downloadGzipGcsObjectAsCompressed`, which reads with
`ReadCompressed(true)`). -/
def Backend.download (b : Backend) (p : Path) : Except Status Bytes :=
  match b.objects p with
  | none => .error .notFound
  | some o => .ok o.content

/-! ### The filesystem adapter: mount state -/

/-- Modelled from the spec: the two modes of a WriteBuffer (section 3): buffered, "fully
local until close/fsync triggers a full-object upload", and unfinalized-stream, "bytes are
incrementally appended to a live backend write-stream". -/
inductive WriteMode where
  | buffered
  | stream
  deriving DecidableEq, Repr

/-- Modelled from the spec: the inode attributes the adapter keeps (section 3: cached
size and the known generation; modification time left out), with the content-encoding
flag of the object. -/
structure Attributes where
  size : Nat
  generation : Nat
  gzip : Bool
  deriving DecidableEq, Repr

/-- Modelled from the spec: a MetadataCacheEntry, "(inode id → attributes, expiry
timestamp)" (section 3). -/
structure MetadataCacheEntry where
  attrs : Attributes
  expiry : Nat
  deriving DecidableEq, Repr

/-- Modelled from the spec: a ContentCacheBlock, "a cached contiguous byte range of one
Generation's content, tagged with the Generation it belongs to" (section 3). -/
structure ContentCacheBlock where
  generation : Nat
  offset : Nat
  bytes : Bytes
  deriving DecidableEq, Repr

/-- Modelled from the spec: a WriteBuffer (section 3) with the handle that owns it (the
UnfinalizedObjectState's "which handle owns it"): every byte written through the handle
so far, and how many leading bytes have already been pushed to the backend. -/
structure WriteBuffer where
  owner : Nat
  mode : WriteMode
  bytes : Bytes
  durable : Nat
  deriving DecidableEq, Repr

/-- Modelled from the spec: a FileHandle (section 3), bound to the attributes and
generation observed at open time (`none` for a file created locally and not yet
uploaded), and its stale flag. -/
structure FileHandle where
  path : Path
  attrs : Option Attributes
  stale : Bool
  deriving DecidableEq, Repr

/-- Modelled from the spec: the state of one mounted filesystem: its identity as a
backend writer, the mount-time configuration of section 6 (`ttl` is
`metadata-cache-ttl-secs`, `gzipPassThrough` the gzip pass-through flag, `writeMode` the
WriteBuffer mode given to new files, `gunzip` the decoder used when encoded bytes are not
passed through), the Metadata Cache, the Content Cache, the write buffers per path and the
open handles. -/
structure Mount where
  client : Nat
  ttl : Nat
  gzipPassThrough : Bool
  writeMode : WriteMode
  gunzip : Bytes → Bytes
  metadata : Path → Option MetadataCacheEntry
  content : Path → List ContentCacheBlock
  buffers : Path → Option WriteBuffer
  handles : Nat → Option FileHandle
  nextHandle : Nat

/-- Modelled from the spec: a mount together with the bucket it is mounted on. -/
structure World where
  mount : Mount
  backend : Backend

/-- What `os.Stat` reports (`Name()` is the last element of the path, `Size()`). -/
structure FileInfo where
  name : String
  size : Nat
  deriving DecidableEq, Repr

/-- The mount with the Metadata Cache entry of `p` replaced. -/
def Mount.setMetadata (m : Mount) (p : Path) (e : Option MetadataCacheEntry) : Mount :=
  { m with metadata := fun q => if q = p then e else m.metadata q }

/-- The mount with the Content Cache blocks of `p` replaced. -/
def Mount.setContent (m : Mount) (p : Path) (blocks : List ContentCacheBlock) : Mount :=
  { m with content := fun q => if q = p then blocks else m.content q }

/-- The mount with the write buffer of `p` replaced. -/
def Mount.setBuffer (m : Mount) (p : Path) (buf : Option WriteBuffer) : Mount :=
  { m with buffers := fun q => if q = p then buf else m.buffers q }

/-- The mount with the handle `hid` replaced. -/
def Mount.setHandle (m : Mount) (hid : Nat) (h : Option FileHandle) : Mount :=
  { m with handles := fun i => if i = hid then h else m.handles i }

/-- Modelled from the spec: Metadata Cache `lookup(inode) -> Attributes | miss`
(section 4.2). An "entry is never used past its expiry timestamp". -/
def Mount.lookup (m : Mount) (p : Path) (now : Nat) : Option MetadataCacheEntry :=
  match m.metadata p with
  | none => none
  | some e => if now < e.expiry then some e else none

/-- Modelled from the spec: Metadata Cache `insert(inode, attributes, ttl)` (section 4.2).
With a TTL of zero the entry has expired as soon as it is stored: caching is disabled. -/
def Mount.insert (m : Mount) (p : Path) (a : Attributes) (now : Nat) : Mount :=
  m.setMetadata p (some ⟨a, now + m.ttl⟩)

/-- Modelled from the spec: `invalidate(inode)` (section 4.2), together with the
invalidation "en masse" of the inode's Content Cache blocks (section 3). -/
def Mount.invalidate (m : Mount) (p : Path) : Mount :=
  (m.setMetadata p none).setContent p []

/-- Modelled from the spec: every handle open on `p` becomes stale (section 4.5: after a
rename, a handle "still pinned to the old (now-deleted) name/generation must subsequently
fail further writes with a stale-handle error"). -/
def Mount.markStale (m : Mount) (p : Path) : Mount :=
  { m with handles := fun i =>
      (m.handles i).map (fun h => if h.path = p then { h with stale := true } else h) }

/-- The mount after handing out its next handle id. -/
def Mount.bump (m : Mount) : Mount :=
  { m with nextHandle := m.nextHandle + 1 }

/-- The attributes a `statObject` result gives an inode. -/
def ObjectStat.attrs (st : ObjectStat) : Attributes :=
  ⟨st.size, st.generation, st.gzip⟩

/-! ### The filesystem adapter: operations -/

/-- Modelled from the spec: the side effect of the Generation Tracker (section 4.1) when
a backend stat comes back: "on detecting a generation change for a name with live cache
entries, it must invalidate Metadata Cache and Content Cache entries for that inode";
then the fresh attributes are cached. -/
def Mount.refresh (m : Mount) (p : Path) (st : ObjectStat) (now : Nat) : Mount :=
  let changed : Bool :=
    match m.metadata p with
    | some e => e.attrs.generation != st.generation
    | none => false
  (if changed then m.invalidate p else m).insert p st.attrs now

/-- Modelled from the spec: Generation Tracker `resolve(name)` (section 4.1), which
"performs (or reuses a cached) backend stat". A cache miss or an expired entry "always
triggers a fresh backend stat". Backend failures go through the Error Mapper. -/
def resolve (now : Nat) (p : Path) (w : World) : Except Errno Attributes × World :=
  match w.mount.lookup p now with
  | some e => (.ok e.attrs, w)
  | none =>
    match w.backend.statObject p with
    | .error s => (.error (errorMapper s), w)
    | .ok st => (.ok st.attrs, { w with mount := w.mount.refresh p st now })

/-- Modelled from the spec: `stat` of a path through the mount (the tests'
`operations.StatFile` and `os.Stat`). An inode with a live WriteBuffer reports the
"locally-known buffered size", so that "a stat immediately following a write on the same
mount observes the new size even before remote finalize" (section 4.2, and
read-your-own-writes in section 8, which holds at every TTL); any other inode is resolved
through the Metadata Cache and the backend. -/
def statFile (now : Nat) (p : Path) (w : World) : Except Errno FileInfo × World :=
  match w.mount.buffers p with
  | some buf => (.ok ⟨p.name, buf.bytes.length⟩, w)
  | none =>
    match resolve now p w with
    | (.ok a, w1) => (.ok ⟨p.name, a.size⟩, w1)
    | (.error e, w1) => (.error e, w1)

/-- Modelled from the spec: `open` of an existing path for reading (`os.Open`): the
FileHandle "binds to the Generation observed at open time" (section 3). -/
def openFile (now : Nat) (p : Path) (w : World) : Except Errno Nat × World :=
  match resolve now p w with
  | (.error e, w1) => (.error e, w1)
  | (.ok a, w1) =>
    (.ok w1.mount.nextHandle,
     { w1 with mount := (w1.mount.setHandle w1.mount.nextHandle (some ⟨p, some a, false⟩)).bump })

/-- Modelled from the spec: the Content Cache lookup of the Read Path (section 4.3): a
block of the handle's generation that covers the whole requested range serves it. -/
def cacheFind (blocks : List ContentCacheBlock) (generation offset length : Nat) :
    Option Bytes :=
  match blocks.find? (fun blk => blk.generation = generation ∧ blk.offset ≤ offset ∧
      offset + length ≤ blk.offset + blk.bytes.length) with
  | some blk => some ((blk.bytes.drop (offset - blk.offset)).take length)
  | none => none

/-- Modelled from the spec: the backend fetch of the Read Path (section 4.3). When the
object is not gzip-encoded, or the mount passes encoded bytes through, the range is read
from the stored bytes ("ranges computed against the encoded byte length"); otherwise the
whole object is read and decoded and the range is taken from the decoded bytes. -/
def fetch (m : Mount) (b : Backend) (p : Path) (a : Attributes) (offset length : Nat) :
    Except Status Bytes :=
  if m.gzipPassThrough || !a.gzip then b.readRange p a.generation offset length
  else
    match b.readRange p a.generation 0 a.size with
    | .error s => .error s
    | .ok stored => .ok (((m.gunzip stored).drop offset).take length)

/-- Modelled from the spec: `read(handle, offset, length) -> bytes` (section 4.3). A stale
handle fails with stale-handle; the owner of a WriteBuffer reads its own writes; any other
read is served from the Content Cache or fetched from the backend at the handle's pinned
generation and inserted as a block tagged with that generation. -/
def readFile (hid offset length : Nat) (w : World) : Except Errno Bytes × World :=
  match w.mount.handles hid with
  | none => (.error Errno.EIO, w)
  | some h =>
    if h.stale then (.error Errno.ESTALE, w)
    else
      match (w.mount.buffers h.path).filter (fun buf => buf.owner = hid) with
      | some buf => (.ok ((buf.bytes.drop offset).take length), w)
      | none =>
        match h.attrs with
        | none => (.error Errno.EIO, w)
        | some a =>
          match cacheFind (w.mount.content h.path) a.generation offset length with
          | some bytes => (.ok bytes, w)
          | none =>
            match fetch w.mount w.backend h.path a offset length with
            | .error s => (.error (errorMapper s), w)
            | .ok bytes =>
              let blocks := ⟨a.generation, offset, bytes⟩ :: w.mount.content h.path
              (.ok bytes, { w with mount := w.mount.setContent h.path blocks })

/-- Modelled from the spec: creating a file through the mount (the tests'
`operations.CreateFile`). A path that already has a local WriteBuffer is refused with an
I/O error ("a second local open for write ... must either join ... or fail"). In
unfinalized-stream mode the write-stream is opened on the backend at once; in buffered
mode nothing reaches the backend before the first sync or close. The new handle owns the
(empty) WriteBuffer. -/
def createFile (p : Path) (w : World) : Except Errno Nat × World :=
  match w.mount.buffers p with
  | some _ => (.error Errno.EIO, w)
  | none =>
    match w.mount.writeMode with
    | .stream =>
      match w.backend.openWriteStream w.mount.client p with
      | .error s => (.error (errorMapper s), w)
      | .ok b1 =>
        match b1.statObject p with
        | .error s => (.error (errorMapper s), { w with backend := b1 })
        | .ok st =>
          (.ok w.mount.nextHandle,
           { mount := ((w.mount.setHandle w.mount.nextHandle
                          (some ⟨p, some st.attrs, false⟩)).setBuffer p
                          (some ⟨w.mount.nextHandle, .stream, [], 0⟩)).bump
             backend := b1 })
    | .buffered =>
      let attrs : Option Attributes :=
        match w.backend.statObject p with
        | .ok st => some st.attrs
        | .error _ => none
      (.ok w.mount.nextHandle,
       { w with mount := ((w.mount.setHandle w.mount.nextHandle
                          (some ⟨p, attrs, false⟩)).setBuffer p
                          (some ⟨w.mount.nextHandle, .buffered, [], 0⟩)).bump })

/-- Modelled from the spec: `write(handle, bytes)` at the handle's file position, which
is the end of the buffer (section 4.4; the tests' `WriteWithoutClose` and `fh.Write`). A
stale handle fails with stale-handle; a handle that does not own the path's WriteBuffer
fails with an I/O error. The write also updates the Metadata Cache entry of the inode
with the locally-known size (section 4.2). The result is the number of bytes written. -/
def writeFile (now hid : Nat) (data : Bytes) (w : World) : Except Errno Nat × World :=
  match w.mount.handles hid with
  | none => (.error Errno.EIO, w)
  | some h =>
    if h.stale then (.error Errno.ESTALE, w)
    else
      match (w.mount.buffers h.path).filter (fun buf => buf.owner = hid) with
      | none => (.error Errno.EIO, w)
      | some buf =>
        let m1 := w.mount.setBuffer h.path (some { buf with bytes := buf.bytes ++ data })
        let m2 :=
          match h.attrs with
          | some a => m1.insert h.path { a with size := (buf.bytes ++ data).length } now
          | none => m1
        (.ok data.length, { w with mount := m2 })

/-- Modelled from the spec: Generation Tracker `isCurrent(handleGeneration)` (section
4.1), asked before a buffered upload: the generation pinned by the handle is still the
object's generation (for a file not yet uploaded: the object still does not exist), and
the object is not in unfinalized-stream state from another writer (section 4.4: such an
overwrite is surfaced as a stale-handle error). -/
def isCurrent (b : Backend) (h : FileHandle) : Bool :=
  match b.statObject h.path, h.attrs with
  | .ok st, some a => st.generation = a.generation && st.finalized
  | .error _, none => true
  | _, _ => false

/-- Modelled from the spec: a failed flush or finalize: the error is returned and, when
it is stale-handle, "the handle transitions to stale" (section 3). -/
def failHandle (hid : Nat) (h : FileHandle) (e : Errno) (w : World) :
    Except Errno Unit × World :=
  (.error e,
   if e = Errno.ESTALE then
     { w with mount := w.mount.setHandle hid (some { h with stale := true }) }
   else w)

/-- Modelled from the spec: `sync(handle)` (section 4.4), which "forces outstanding
buffered bytes durable without closing" (the tests' `operations.SyncFile`). In
unfinalized-stream mode the bytes not yet pushed are appended to the live stream; in
buffered mode the full buffered content is uploaded as one new generation, which
supersedes the prior one in the caches and in the handle. -/
def syncFile (now hid : Nat) (w : World) : Except Errno Unit × World :=
  match w.mount.handles hid with
  | none => (.error Errno.EIO, w)
  | some h =>
    if h.stale then (.error Errno.ESTALE, w)
    else
      match (w.mount.buffers h.path).filter (fun buf => buf.owner = hid) with
      | none => (.ok (), w)
      | some buf =>
        match buf.mode with
        | .stream =>
          match w.backend.appendStream w.mount.client h.path (buf.bytes.drop buf.durable) with
          | .error s => failHandle hid h (errorMapper s) w
          | .ok b1 =>
            (.ok (),
             { mount := w.mount.setBuffer h.path (some { buf with durable := buf.bytes.length })
               backend := b1 })
        | .buffered =>
          if isCurrent w.backend h then
            match w.backend.createObject h.path buf.bytes with
            | .error s => failHandle hid h (errorMapper s) w
            | .ok (g, b1) =>
              let a : Attributes := ⟨buf.bytes.length, g, false⟩
              (.ok (),
               { mount := ((((w.mount.invalidate h.path).insert h.path a now).setHandle hid
                            (some { h with attrs := some a })).setBuffer h.path
                            (some { buf with durable := buf.bytes.length }))
                 backend := b1 })
          else failHandle hid h Errno.ESTALE w

/-- Modelled from the spec: `finalize(handle)` (section 4.4), which "makes the write
permanent and produces a new Generation": outstanding bytes are flushed as by `sync`;
then, in unfinalized-stream mode, the stream is finalized. The WriteBuffer is destroyed
"on successful finalize" and the caches take the new generation and the true size. -/
def finalize (now hid : Nat) (w : World) : Except Errno Unit × World :=
  match syncFile now hid w with
  | (.error e, w1) => (.error e, w1)
  | (.ok (), w1) =>
    match w1.mount.handles hid with
    | none => (.error Errno.EIO, w1)
    | some h =>
      match (w1.mount.buffers h.path).filter (fun buf => buf.owner = hid) with
      | none => (.ok (), w1)
      | some buf =>
        match buf.mode with
        | .buffered => (.ok (), { w1 with mount := w1.mount.setBuffer h.path none })
        | .stream =>
          match w1.backend.finalizeStream w1.mount.client h.path with
          | .error s => failHandle hid h (errorMapper s) w1
          | .ok (g, b2) =>
            let a : Attributes := ⟨buf.bytes.length, g, false⟩
            (.ok (),
             { mount := ((((w1.mount.invalidate h.path).insert h.path a now).setHandle hid
                          (some { h with attrs := some a })).setBuffer h.path none)
               backend := b2 })

/-- Modelled from the spec: the mount after a handle is given up: the handle is gone, and
a WriteBuffer it still owns is "discarded on abandonment/error" (section 3). -/
def Mount.release (m : Mount) (hid : Nat) : Mount :=
  match m.handles hid with
  | none => m
  | some h =>
    match (m.buffers h.path).filter (fun buf => buf.owner = hid) with
    | some _ => (m.setHandle hid none).setBuffer h.path none
    | none => m.setHandle hid none

/-- Modelled from the spec: `close` of a handle (the tests' `fh.Close` and
`writer.Close` on the mount side): finalize, then give the handle up whatever the
outcome. -/
def closeFile (now hid : Nat) (w : World) : Except Errno Unit × World :=
  match finalize now hid w with
  | (r, w1) => (r, { w1 with mount := w1.mount.release hid })

/-- Modelled from the spec: the cross-mount rule of the Rename Emulator (section 4.5):
the source is in unfinalized-stream state and the writer that holds its stream is not
this mount, so it "is being concurrently written from a different mount/process". -/
def crossMount (w : World) (p : Path) : Bool :=
  match w.backend.statObject p with
  | .ok st =>
    match st.writer with
    | some writer => writer != w.mount.client
    | none => false
  | .error _ => false

/-- Modelled from the spec: step (2) of the Rename Emulator (section 4.5): "if the source
has unsynced local writes, flush/finalize them first so the rename operates on durable
content". -/
def settle (now : Nat) (p : Path) (w : World) : Except Errno Unit × World :=
  match w.mount.buffers p with
  | none => (.ok (), w)
  | some buf => finalize now buf.owner w

/-- Modelled from the spec: `rename(oldPath, newPath)` of the Rename Emulator (section
4.5; the tests' `operations.RenameFile`). The cross-mount rule is checked first and fails
with an I/O error; then local writes of the source are finalized, the current generation
of the source is pinned, the backend copies it to the destination and deletes the source
(a failure between the two "leaves the object duplicated under both names"); last, the
caches of both inodes are invalidated and every handle still open on the old name
becomes stale. -/
def renameFile (now : Nat) (old new : Path) (w : World) : Except Errno Unit × World :=
  if crossMount w old then (.error Errno.EIO, w)
  else
    match settle now old w with
    | (.error e, w1) => (.error e, w1)
    | (.ok (), w1) =>
      match w1.backend.statObject old with
      | .error s => (.error (errorMapper s), w1)
      | .ok st =>
        match w1.backend.copyObject old st.generation new with
        | .error s => (.error (errorMapper s), w1)
        | .ok (_, b2) =>
          match b2.deleteObject old st.generation with
          | .error s => (.error (errorMapper s), { w1 with backend := b2 })
          | .ok b3 =>
            (.ok (),
             { mount := ((w1.mount.invalidate old).invalidate new).markStale old
               backend := b3 })

/-- Modelled from the spec: the tests' `operations.ReadChunkFromFile path chunkSize
offset`: open the file read-only, read `chunkSize` bytes at `offset`, close it. -/
def ReadChunkFromFile (now : Nat) (p : Path) (chunkSize offset : Nat) (w : World) :
    Except Errno Bytes × World :=
  match openFile now p w with
  | (.error e, w1) => (.error e, w1)
  | (.ok hid, w1) =>
    match readFile hid offset chunkSize w1 with
    | (r, w2) => (r, (closeFile now hid w2).2)

/-- Modelled from the spec: the tests' `client.CreateUnfinalizedObject`, run by a storage
client outside the mount: the writer `client` opens a write-stream on the object and
appends the content, without finalizing. -/
def CreateUnfinalizedObject (client : Nat) (p : Path) (content : Bytes) (b : Backend) :
    Except Status Backend :=
  match b.openWriteStream client p with
  | .error s => .error s
  | .ok b1 => b1.appendStream client p content

/-- A freshly mounted filesystem: empty caches, no buffers, no handles. -/
def Mount.fresh (client ttl : Nat) (gzipPassThrough : Bool) (writeMode : WriteMode) : Mount where
  client := client
  ttl := ttl
  gzipPassThrough := gzipPassThrough
  writeMode := writeMode
  gunzip := fun _ => []
  metadata := fun _ => none
  content := fun _ => []
  buffers := fun _ => none
  handles := fun _ => none
  nextHandle := 0

/-- The empty bucket. -/
def Backend.empty : Backend where
  objects := fun _ => none
  nextGeneration := 1

/-! ### The filesystem adapter: sample states -/

/-- A bucket in which the directory "dir" holds the object "a" and an object whose name is
a newline, of three bytes. -/
def newlineBucket : Backend :=
  (Backend.empty.set ⟨"dir", "a"⟩ (some ⟨1, 1, [7], false, none⟩)).set ⟨"dir", "\n"⟩
    (some ⟨2, 1, [1, 2, 3], false, none⟩)

/-- A bucket in which the directory "dir" holds the object "a" and nothing else. -/
def plainBucket : Backend :=
  Backend.empty.set ⟨"dir", "a"⟩ (some ⟨1, 1, [7], false, none⟩)

/-- A hundred stored bytes, all different: 0, 1, ..., 99. -/
def sampleContent : Bytes := (List.range 100).map UInt8.ofNat

/-- A gzip-encoded object holding the sample bytes. -/
def sampleObject : Object := ⟨1, 1, sampleContent, true, none⟩

/-- A stand-in for the gzip decoder, used to run the definitions on concrete inputs: the
decoded form repeats every stored byte. -/
def sampleGunzip (stored : Bytes) : Bytes := stored.flatMap (fun x => [x, x])

/-- A fresh mount that does not pass encoded bytes through, over a bucket holding the
sample object. -/
def decodingWorld : World :=
  ⟨{ Mount.fresh 1 0 false .stream with gunzip := sampleGunzip },
   Backend.empty.set ⟨"dir", "gz"⟩ (some sampleObject)⟩

/-- A pass-through mount with TTL 60 whose Metadata Cache still holds, unexpired, a size
of 5 bytes for the sample object. -/
def staleMetadataWorld : World :=
  ⟨(Mount.fresh 1 60 true .stream).setMetadata ⟨"dir", "gz"⟩ (some ⟨⟨5, 1, true⟩, 1000⟩),
   Backend.empty.set ⟨"dir", "gz"⟩ (some sampleObject)⟩

/-- A pass-through mount with TTL 60 over a bucket holding the sample object, whose
Metadata Cache holds the object's attributes and whose Content Cache holds its first 15
bytes. -/
def sampleReadWorld : World :=
  ⟨((Mount.fresh 1 60 true .stream).setMetadata ⟨"dir", "gz"⟩
      (some ⟨⟨100, 1, true⟩, 1000⟩)).setContent ⟨"dir", "gz"⟩
      [⟨1, 0, sampleContent.take 15⟩],
   Backend.empty.set ⟨"dir", "gz"⟩ (some sampleObject)⟩

/-- The world reached when a stream-mode mount (client 1) creates "dir/obj", the object is
deleted behind its back, its sync fails, and the outside writer 7 creates an unfinalized
object of the same name: the mount still has its WriteBuffer for the name. -/
def staleBufferWorld : World :=
  let created := (createFile ⟨"dir", "obj"⟩ ⟨Mount.fresh 1 0 true .stream, Backend.empty⟩).2
  let deleted :=
    match created.backend.deleteObject ⟨"dir", "obj"⟩ 1 with
    | .ok b => b
    | .error _ => created.backend
  let synced := (syncFile 1 0 { created with backend := deleted }).2
  let recreated :=
    match CreateUnfinalizedObject 7 ⟨"dir", "obj"⟩ [1, 2, 3] synced.backend with
    | .ok b => b
    | .error _ => synced.backend
  { synced with backend := recreated }

/-! ### The filesystem adapter: state predicates used by the theorems -/

/-- The handle `fh` of the mount is writing `p` and has written `bytes` so far: the handle
is open on `p` and not stale, it owns the WriteBuffer of `p`, which holds `bytes`; in
unfinalized-stream mode the backend object has a live stream of this mount holding the
bytes already pushed; in buffered mode the handle's pinned generation is current. -/
def Writing (w : World) (p : Path) (fh : Nat) (bytes : Bytes) : Prop :=
  ∃ a buf, w.mount.handles fh = some ⟨p, a, false⟩ ∧ w.mount.buffers p = some buf ∧
    buf.owner = fh ∧ buf.bytes = bytes ∧
    ((buf.mode = .stream ∧ buf.durable ≤ bytes.length ∧ ∃ o, w.backend.objects p = some o ∧
        o.stream = some ⟨w.mount.client, bytes.take buf.durable⟩) ∨
     (buf.mode = .buffered ∧ isCurrent w.backend ⟨p, a, false⟩ = true))

/-- The handle `fh` is writing `p`, has written `bytes`, and all of them are durable as
of a sync at time `t`: in unfinalized-stream mode the live stream of this mount holds
`bytes`; in buffered mode the object holds `bytes` as its current generation, which the
handle and the Metadata Cache have taken over. -/
def Synced (w : World) (p : Path) (fh : Nat) (bytes : Bytes) (t : Nat) : Prop :=
  ∃ a buf, w.mount.handles fh = some ⟨p, a, false⟩ ∧ w.mount.buffers p = some buf ∧
    buf.owner = fh ∧ buf.bytes = bytes ∧
    ((buf.mode = .stream ∧ buf.durable = bytes.length ∧ ∃ o, w.backend.objects p = some o ∧
        o.stream = some ⟨w.mount.client, bytes⟩) ∨
     (buf.mode = .buffered ∧ ∃ o, w.backend.objects p = some o ∧ o.content = bytes ∧
        o.stream = none ∧ a = some ⟨bytes.length, o.generation, false⟩ ∧
        w.mount.metadata p = some ⟨⟨bytes.length, o.generation, false⟩, t + w.mount.ttl⟩))

/-- The write of `bytes` to `p` through the handle `fh` has been finalized at time `t`:
the WriteBuffer is gone, the backend object holds `bytes` and has no live stream, and the
Metadata Cache has the entry stored at finalize. The handle is still open. -/
def Finalized (w : World) (p : Path) (fh : Nat) (bytes : Bytes) (t : Nat) : Prop :=
  w.mount.buffers p = none ∧
  ∃ o, w.backend.objects p = some o ∧ o.content = bytes ∧ o.stream = none ∧
    w.mount.handles fh = some ⟨p, some ⟨bytes.length, o.generation, false⟩, false⟩ ∧
    w.mount.metadata p = some ⟨⟨bytes.length, o.generation, false⟩, t + w.mount.ttl⟩

/-- The attributes the backend reports for an object. -/
def Object.attrs (o : Object) : Attributes :=
  ⟨o.content.length, o.generation, o.gzip⟩

/-- The Metadata Cache entry of `p`, if there is one, agrees with the backend object `o`
(nothing has changed the object behind the mount's back since it was cached). -/
def MetadataCoherent (m : Mount) (p : Path) (o : Object) : Prop :=
  ∀ e, m.metadata p = some e → e.attrs = o.attrs

/-- Under pass-through, every Content Cache block of `p` tagged with the generation of
the backend object `o` holds the stored bytes of `o` at the block's offset. -/
def ContentCoherent (m : Mount) (p : Path) (o : Object) : Prop :=
  ∀ blk ∈ m.content p, blk.generation = o.generation →
    blk.bytes = (o.content.drop blk.offset).take blk.bytes.length

/-- The mount can serve reads of the backend object `o` at `p`: the object is there, the
mount has no WriteBuffer of its own on `p`, encoded bytes are passed through (or the
object is not gzip-encoded), and what the two caches hold for `p` agrees with `o`. -/
def ReadReady (w : World) (p : Path) (o : Object) : Prop :=
  w.backend.objects p = some o ∧ w.mount.buffers p = none ∧
  (w.mount.gzipPassThrough = true ∨ o.gzip = false) ∧
  MetadataCoherent w.mount p o ∧ ContentCoherent w.mount p o

/-- Modelled from the spec: the mount-side reads of the loop of `verifyRangedRead`
(read_gzip_test.go, lines 93-99): for each offset multiplier in turn, `readSize` bytes are
read from the mounted file at `offsetMultiplier * readOffset`. The sizes come from the
object size the backend reports. -/
def rangedReads (now : Nat) (p : Path) (gcsObjectSize : Nat) :
    List Nat → World → List (Except Errno Bytes) × World
  | [], w => ([], w)
  | m :: ms, w =>
    let r := ReadChunkFromFile now p (Gzip.readSize gcsObjectSize)
      (m * Gzip.readOffset gcsObjectSize) w
    let rest := rangedReads now p gcsObjectSize ms r.2
    (r.1 :: rest.1, rest.2)


end Fs

/-! ## Part II. Theorems -/

/-! ### Token source -/

namespace Auth

theorem proxy_Token_net (lib : Lib) (ts : proxyTokenSource) (n : Net) :
    (ts.Token lib n).2 = { n with served := n.served ++ [ts.request] } := by
  unfold proxyTokenSource.Token Client.Get proxyTokenSource.request
  cases n.server n.served ⟨ts.client.Transport, ts.endpoint⟩ with
  | error e => rfl
  | ok resp =>
    dsimp only
    split
    · rfl
    · split
      · rfl
      · split <;> rfl

theorem tokenCalls_proxy (lib : Lib) (clock : Nat → Time) (ts : proxyTokenSource) (n : Net)
    (k : Nat) :
    (tokenCalls lib clock k (.proxy ts) n).2.1 = .proxy ts ∧
    (tokenCalls lib clock k (.proxy ts) n).2.2 =
      { n with served := n.served ++ List.replicate k ts.request } := by
  induction k with
  | zero => simp [tokenCalls]
  | succ k ih =>
    obtain ⟨h1, h2⟩ := ih
    simp only [tokenCalls, h1, h2, TokenSource.Token, proxy_Token_net]
    simp [List.replicate_succ', List.append_assoc]

/-- C8. For an endpoint that `url.Parse` accepts with scheme "unix", the token source
built by `newProxyTokenSource` requests "http://unix?" followed by the raw query and
dials the URL's path over the "unix" network; for any other scheme it requests the
endpoint string it was given, over the default transport; an endpoint that does not
parse gives no token source and an error. -/
theorem newProxyTokenSource_transport (lib : Lib) (ctx : Context) (endpoint : String)
    (reuseTokenFromUrl : Bool) :
    (∀ u, lib.urlParse endpoint = .ok u → u.Scheme = "unix" →
      ∃ ts, (newProxyTokenSource lib ctx endpoint reuseTokenFromUrl).ts = some ts ∧
        (newProxyTokenSource lib ctx endpoint reuseTokenFromUrl).err = none ∧
        ts.underlying.endpoint = "http://unix?" ++ u.RawQuery ∧
        ts.underlying.client.Transport = .dialer "unix" u.Path) ∧
    (∀ u, lib.urlParse endpoint = .ok u → u.Scheme ≠ "unix" →
      ∃ ts, (newProxyTokenSource lib ctx endpoint reuseTokenFromUrl).ts = some ts ∧
        (newProxyTokenSource lib ctx endpoint reuseTokenFromUrl).err = none ∧
        ts.underlying.endpoint = endpoint ∧
        ts.underlying.client.Transport = .std) ∧
    (∀ e, lib.urlParse endpoint = .error e →
      (newProxyTokenSource lib ctx endpoint reuseTokenFromUrl).ts = none ∧
      (newProxyTokenSource lib ctx endpoint reuseTokenFromUrl).err ≠ none) := by
  refine ⟨?_, ?_, ?_⟩
  · intro u hu hs
    cases reuseTokenFromUrl <;>
      simp [newProxyTokenSource, hu, hs, TokenSource.underlying]
  · intro u hu hs
    cases reuseTokenFromUrl <;>
      simp [newProxyTokenSource, hu, hs, TokenSource.underlying]
  · intro e he
    simp [newProxyTokenSource, he]

/-- Witness for C8: the three cases at three concrete endpoints. -/
theorem newProxyTokenSource_transport_witness :
    (∃ ts, (newProxyTokenSource sampleLib 0 "unix:///run/token.sock?audience=gcs" true).ts
        = some ts ∧
      (newProxyTokenSource sampleLib 0 "unix:///run/token.sock?audience=gcs" true).err
        = none ∧
      ts.underlying.endpoint = "http://unix?" ++ "audience=gcs" ∧
      ts.underlying.client.Transport = .dialer "unix" "/run/token.sock") ∧
    (∃ ts, (newProxyTokenSource sampleLib 0 "https://proxy.example/token" false).ts
        = some ts ∧
      (newProxyTokenSource sampleLib 0 "https://proxy.example/token" false).err = none ∧
      ts.underlying.endpoint = "https://proxy.example/token" ∧
      ts.underlying.client.Transport = .std) ∧
    ((newProxyTokenSource sampleLib 0 "::" false).ts = none ∧
      (newProxyTokenSource sampleLib 0 "::" false).err ≠ none) :=
  ⟨(newProxyTokenSource_transport sampleLib 0 "unix:///run/token.sock?audience=gcs" true).1
      ⟨"unix", "/run/token.sock", "audience=gcs"⟩ (by simp [sampleLib]) (by decide),
   (newProxyTokenSource_transport sampleLib 0 "https://proxy.example/token" false).2.1
      ⟨"https", "/token", ""⟩ (by simp [sampleLib]) (by decide),
   (newProxyTokenSource_transport sampleLib 0 "::" false).2.2
      (.lib "invalid URL") (by simp [sampleLib])⟩

/-- C9. For an endpoint that parses, let p be the proxy source with the given context,
with the endpoint `NewTokenSourceFromURL` was given (for scheme "unix": "http://unix?"
and the raw query) and with the default transport (for "unix": the dialer to the URL's
path). With `reuseTokenFromUrl` false `NewTokenSourceFromURL` returns p bare, every
`Token` call on it issues one GET of that endpoint over that transport and returns what
`proxyTokenSource.Token` makes of the answer, so k calls issue exactly k such GETs; with
`reuseTokenFromUrl` true it returns p wrapped in a reusing source holding no token, on
which a successful `Token` call issues one GET, and after which every `Token` call made
while the fetched token is valid returns that token and issues no GET. -/
theorem NewTokenSourceFromURL_reuse (lib : Lib) (ctx : Context) (tokenUrl : String) (u : URL)
    (p : proxyTokenSource)
    (hu : lib.urlParse tokenUrl = .ok u)
    (hp : p = { ctx := ctx
                endpoint :=
                  if u.Scheme = "unix" then "http://unix?" ++ u.RawQuery else tokenUrl
                client := ⟨if u.Scheme = "unix" then .dialer "unix" u.Path else .std⟩ }) :
    NewTokenSourceFromURL lib ctx tokenUrl false = ⟨some (.proxy p), none⟩ ∧
    (∀ (now : Time) (n : Net),
      TokenSource.Token lib now (.proxy p) n
        = ((p.Token lib n).1, .proxy p,
           { n with served := n.served ++ [⟨p.client.Transport, p.endpoint⟩] })) ∧
    (∀ (clock : Nat → Time) (n : Net) (k : Nat),
      (tokenCalls lib clock k (.proxy p) n).1.length = k ∧
      (tokenCalls lib clock k (.proxy p) n).2.2.served =
        n.served ++ List.replicate k ⟨p.client.Transport, p.endpoint⟩) ∧
    NewTokenSourceFromURL lib ctx tokenUrl true = ⟨some (.reuse none (.proxy p)), none⟩ ∧
    (∀ (now : Time) (n : Net) (tok : Token) (s1 : TokenSource) (n1 : Net),
      TokenSource.Token lib now (.reuse none (.proxy p)) n = (⟨some tok, none⟩, s1, n1) →
      n1.served = n.served ++ [⟨p.client.Transport, p.endpoint⟩] ∧
      ∀ (later : Time) (n2 : Net), lib.valid tok later = true →
        TokenSource.Token lib later s1 n2 = (⟨some tok, none⟩, s1, n2)) := by
  have hbuilt : ∀ reuse : Bool,
      NewTokenSourceFromURL lib ctx tokenUrl reuse
        = if reuse then ⟨some (.reuse none (.proxy p)), none⟩
          else ⟨some (.proxy p), none⟩ := by
    intro reuse
    subst hp
    simp only [NewTokenSourceFromURL, newProxyTokenSource, hu]
    by_cases hs : u.Scheme = "unix"
    · simp [hs]
    · simp [hs]
  refine ⟨by simpa using hbuilt false, ?_, ?_, by simpa using hbuilt true, ?_⟩
  · intro now n
    simp only [TokenSource.Token, proxy_Token_net]
    rfl
  · intro clock n k
    refine ⟨?_, ?_⟩
    · induction k with
      | zero => simp [tokenCalls]
      | succ k ih => simp [tokenCalls, ih]
    · rw [(tokenCalls_proxy lib clock _ n k).2]
      rfl
  · intro now n tok s1 n1 h
    simp only [TokenSource.Token, Option.any_none, Bool.false_eq_true, if_false] at h
    split at h
    · simp at h
    · rename_i herr
      simp only [Prod.mk.injEq, TokenResult.mk.injEq, and_true] at h
      obtain ⟨htok, hs1, hn1⟩ := h
      subst hs1
      refine ⟨?_, ?_⟩
      · rw [← hn1, proxy_Token_net]
        rfl
      · intro later n2 hv
        simp [TokenSource.Token, htok, hv]

/-- Witness for C9: at the sample endpoint the bare source is the proxy source of that
endpoint, and three `Token` calls on it over the sample network are three GETs of that
endpoint; for the unix endpoint the GETs go to "http://unix?audience=gcs" through the
socket. -/
theorem NewTokenSourceFromURL_reuse_witness :
    (NewTokenSourceFromURL sampleLib 0 "https://proxy.example/token" false
        = ⟨some (.proxy ⟨0, "https://proxy.example/token", ⟨.std⟩⟩), none⟩ ∧
      (tokenCalls sampleLib (fun _ => 0) 3
          (.proxy ⟨0, "https://proxy.example/token", ⟨.std⟩⟩) sampleNet).2.2.served
        = sampleNet.served ++ List.replicate 3 ⟨.std, "https://proxy.example/token"⟩ ∧
      NewTokenSourceFromURL sampleLib 0 "https://proxy.example/token" true
        = ⟨some (.reuse none (.proxy ⟨0, "https://proxy.example/token", ⟨.std⟩⟩)), none⟩) ∧
    (NewTokenSourceFromURL sampleLib 0 "unix:///run/token.sock?audience=gcs" false
        = ⟨some (.proxy ⟨0, "http://unix?audience=gcs",
            ⟨.dialer "unix" "/run/token.sock"⟩⟩), none⟩ ∧
      (tokenCalls sampleLib (fun _ => 0) 2
          (.proxy ⟨0, "http://unix?audience=gcs", ⟨.dialer "unix" "/run/token.sock"⟩⟩)
          sampleNet).2.2.served
        = sampleNet.served ++ List.replicate 2
            ⟨.dialer "unix" "/run/token.sock", "http://unix?audience=gcs"⟩) :=
  ⟨⟨(NewTokenSourceFromURL_reuse sampleLib 0 "https://proxy.example/token"
        ⟨"https", "/token", ""⟩ ⟨0, "https://proxy.example/token", ⟨.std⟩⟩
        (by simp [sampleLib]) (by decide)).1,
    ((NewTokenSourceFromURL_reuse sampleLib 0 "https://proxy.example/token"
        ⟨"https", "/token", ""⟩ ⟨0, "https://proxy.example/token", ⟨.std⟩⟩
        (by simp [sampleLib]) (by decide)).2.2.1 (fun _ => 0) sampleNet 3).2,
    (NewTokenSourceFromURL_reuse sampleLib 0 "https://proxy.example/token"
        ⟨"https", "/token", ""⟩ ⟨0, "https://proxy.example/token", ⟨.std⟩⟩
        (by simp [sampleLib]) (by decide)).2.2.2.1⟩,
   ⟨(NewTokenSourceFromURL_reuse sampleLib 0 "unix:///run/token.sock?audience=gcs"
        ⟨"unix", "/run/token.sock", "audience=gcs"⟩
        ⟨0, "http://unix?audience=gcs", ⟨.dialer "unix" "/run/token.sock"⟩⟩
        (by simp [sampleLib]) (by decide)).1,
    ((NewTokenSourceFromURL_reuse sampleLib 0 "unix:///run/token.sock?audience=gcs"
        ⟨"unix", "/run/token.sock", "audience=gcs"⟩
        ⟨0, "http://unix?audience=gcs", ⟨.dialer "unix" "/run/token.sock"⟩⟩
        (by simp [sampleLib]) (by decide)).2.2.1 (fun _ => 0) sampleNet 2).2⟩⟩

end Auth

/-! ### Read metrics -/

namespace Metrics

/-- C10. On every metric handle, `CaptureGCSReadMetrics` with read type `r` and requested
size `n` does what the two calls `GCSReadCount ctx 1 r` and then
`GCSDownloadBytesCount ctx n r` do, in that order; on the recording handle the log grows
by exactly these two entries and by nothing else. The function has no result besides the
handle's new state. -/
theorem CaptureGCSReadMetrics_two_calls {σ : Type} (ctx : Context) (h : MetricHandle σ)
    (r : String) (n : Int) (s : σ) :
    CaptureGCSReadMetrics ctx h r n s
        = runCalls h [.GCSReadCount ctx 1 r, .GCSDownloadBytesCount ctx n r] s ∧
    ∀ log : List Call,
      CaptureGCSReadMetrics ctx recorder r n log
        = log ++ [.GCSReadCount ctx 1 r, .GCSDownloadBytesCount ctx n r] := by
  refine ⟨rfl, ?_⟩
  intro log
  simp [CaptureGCSReadMetrics, recorder]

end Metrics

/-! ### Ranges of the ranged-read check -/

namespace Gzip

theorem readOffset_double_lt (S : Nat) (h : 10 ≤ S) : 8 * readOffset S < readSize S := by
  unfold readOffset readSize
  omega

theorem mem_rangeFor_nine (S m : Nat) (h : 10 ≤ S) (hm : m ≤ 9) (hm1 : 1 ≤ m) :
    (rangeFor S m).Mem (9 * readOffset S) := by
  have h8 := readOffset_double_lt S h
  unfold rangeFor ByteRange.Mem
  dsimp only
  constructor
  · exact Nat.mul_le_mul_right _ hm
  · have : 9 * readOffset S ≤ m * readOffset S + 8 * readOffset S := by
      have : 1 * readOffset S ≤ m * readOffset S := Nat.mul_le_mul_right _ hm1
      omega
    omega

theorem rangeFor_empty (S m x : Nat) (h : S < 10) : ¬ (rangeFor S m).Mem x := by
  unfold rangeFor ByteRange.Mem readSize
  dsimp only
  omega

/-- C7, counterexample. For an object of 100 bytes the five ranges are [1,11), [3,13),
[5,15), [7,17) and [9,19): they are not pairwise disjoint. -/
theorem readRanges_not_disjoint_at_100 :
    ¬ (readRanges 100).Pairwise ByteRange.DisjointFrom := by
  intro h
  have h13 : ByteRange.DisjointFrom (rangeFor 100 1) (rangeFor 100 3) := by
    simp only [readRanges, offsetMultipliers, List.map, List.pairwise_cons] at h
    exact h.1 _ (by simp)
  exact h13 3 (by decide)

/-- C7, as amended. The five ranges read by the ranged-read check are pairwise disjoint
exactly when the object is smaller than 10 bytes (then all five are empty); for an
object of 10 bytes or more all five ranges contain the byte at offset `9 * readOffset`,
so any two of them overlap. -/
theorem readRanges_disjoint_iff (S : Nat) :
    ((readRanges S).Pairwise ByteRange.DisjointFrom ↔ S < 10) ∧
    (10 ≤ S → ∀ r ∈ readRanges S, r.Mem (9 * readOffset S)) := by
  have hall : 10 ≤ S → ∀ r ∈ readRanges S, r.Mem (9 * readOffset S) := by
    intro h r hr
    simp only [readRanges, offsetMultipliers, List.map, List.mem_cons, List.mem_singleton,
      List.not_mem_nil, or_false] at hr
    rcases hr with rfl | rfl | rfl | rfl | rfl <;>
      exact mem_rangeFor_nine S _ h (by decide) (by decide)
  refine ⟨⟨?_, ?_⟩, hall⟩
  · intro hp
    by_contra hge
    have h10 : 10 ≤ S := by omega
    have h13 : ByteRange.DisjointFrom (rangeFor S 1) (rangeFor S 3) := by
      simp only [readRanges, offsetMultipliers, List.map, List.pairwise_cons] at hp
      exact hp.1 _ (by simp)
    exact h13 (9 * readOffset S)
      ⟨mem_rangeFor_nine S 1 h10 (by decide) (by decide),
       mem_rangeFor_nine S 3 h10 (by decide) (by decide)⟩
  · intro hlt
    have hd : ∀ m k, ByteRange.DisjointFrom (rangeFor S m) (rangeFor S k) :=
      fun m k x hx => rangeFor_empty S m x hlt hx.1
    simp only [readRanges, offsetMultipliers, List.map, List.pairwise_cons, List.mem_cons,
      List.mem_singleton, List.not_mem_nil, or_false, forall_eq_or_imp, forall_eq,
      List.Pairwise.nil, and_true, IsEmpty.forall_iff, implies_true]
    simp [hd]

/-- Witness for C7 as amended, at 100 bytes: the ranges are not pairwise disjoint and each
contains offset 9. -/
theorem readRanges_disjoint_iff_witness :
    ¬ (readRanges 100).Pairwise ByteRange.DisjointFrom ∧
    ∀ r ∈ readRanges 100, r.Mem (9 * readOffset 100) :=
  ⟨fun hp => absurd ((readRanges_disjoint_iff 100).1.1 hp) (by decide),
   (readRanges_disjoint_iff 100).2 (by decide)⟩

end Gzip


/-! ### Filesystem adapter: how the state updates act on each field -/

namespace Fs

@[simp] theorem Mount.setMetadata_client (m : Mount) (p : Path) (e : Option MetadataCacheEntry) :
    (m.setMetadata p e).client = m.client := rfl

@[simp] theorem Mount.setMetadata_ttl (m : Mount) (p : Path) (e : Option MetadataCacheEntry) :
    (m.setMetadata p e).ttl = m.ttl := rfl

@[simp] theorem Mount.setMetadata_gzipPassThrough (m : Mount) (p : Path) (e : Option MetadataCacheEntry) :
    (m.setMetadata p e).gzipPassThrough = m.gzipPassThrough := rfl

@[simp] theorem Mount.setMetadata_writeMode (m : Mount) (p : Path) (e : Option MetadataCacheEntry) :
    (m.setMetadata p e).writeMode = m.writeMode := rfl

@[simp] theorem Mount.setMetadata_gunzip (m : Mount) (p : Path) (e : Option MetadataCacheEntry) :
    (m.setMetadata p e).gunzip = m.gunzip := rfl

@[simp] theorem Mount.setMetadata_content (m : Mount) (p : Path) (e : Option MetadataCacheEntry) :
    (m.setMetadata p e).content = m.content := rfl

@[simp] theorem Mount.setMetadata_buffers (m : Mount) (p : Path) (e : Option MetadataCacheEntry) :
    (m.setMetadata p e).buffers = m.buffers := rfl

@[simp] theorem Mount.setMetadata_handles (m : Mount) (p : Path) (e : Option MetadataCacheEntry) :
    (m.setMetadata p e).handles = m.handles := rfl

@[simp] theorem Mount.setMetadata_nextHandle (m : Mount) (p : Path) (e : Option MetadataCacheEntry) :
    (m.setMetadata p e).nextHandle = m.nextHandle := rfl

@[simp] theorem Mount.setContent_client (m : Mount) (p : Path) (blocks : List ContentCacheBlock) :
    (m.setContent p blocks).client = m.client := rfl

@[simp] theorem Mount.setContent_ttl (m : Mount) (p : Path) (blocks : List ContentCacheBlock) :
    (m.setContent p blocks).ttl = m.ttl := rfl

@[simp] theorem Mount.setContent_gzipPassThrough (m : Mount) (p : Path) (blocks : List ContentCacheBlock) :
    (m.setContent p blocks).gzipPassThrough = m.gzipPassThrough := rfl

@[simp] theorem Mount.setContent_writeMode (m : Mount) (p : Path) (blocks : List ContentCacheBlock) :
    (m.setContent p blocks).writeMode = m.writeMode := rfl

@[simp] theorem Mount.setContent_gunzip (m : Mount) (p : Path) (blocks : List ContentCacheBlock) :
    (m.setContent p blocks).gunzip = m.gunzip := rfl

@[simp] theorem Mount.setContent_metadata (m : Mount) (p : Path) (blocks : List ContentCacheBlock) :
    (m.setContent p blocks).metadata = m.metadata := rfl

@[simp] theorem Mount.setContent_buffers (m : Mount) (p : Path) (blocks : List ContentCacheBlock) :
    (m.setContent p blocks).buffers = m.buffers := rfl

@[simp] theorem Mount.setContent_handles (m : Mount) (p : Path) (blocks : List ContentCacheBlock) :
    (m.setContent p blocks).handles = m.handles := rfl

@[simp] theorem Mount.setContent_nextHandle (m : Mount) (p : Path) (blocks : List ContentCacheBlock) :
    (m.setContent p blocks).nextHandle = m.nextHandle := rfl

@[simp] theorem Mount.setBuffer_client (m : Mount) (p : Path) (buf : Option WriteBuffer) :
    (m.setBuffer p buf).client = m.client := rfl

@[simp] theorem Mount.setBuffer_ttl (m : Mount) (p : Path) (buf : Option WriteBuffer) :
    (m.setBuffer p buf).ttl = m.ttl := rfl

@[simp] theorem Mount.setBuffer_gzipPassThrough (m : Mount) (p : Path) (buf : Option WriteBuffer) :
    (m.setBuffer p buf).gzipPassThrough = m.gzipPassThrough := rfl

@[simp] theorem Mount.setBuffer_writeMode (m : Mount) (p : Path) (buf : Option WriteBuffer) :
    (m.setBuffer p buf).writeMode = m.writeMode := rfl

@[simp] theorem Mount.setBuffer_gunzip (m : Mount) (p : Path) (buf : Option WriteBuffer) :
    (m.setBuffer p buf).gunzip = m.gunzip := rfl

@[simp] theorem Mount.setBuffer_metadata (m : Mount) (p : Path) (buf : Option WriteBuffer) :
    (m.setBuffer p buf).metadata = m.metadata := rfl

@[simp] theorem Mount.setBuffer_content (m : Mount) (p : Path) (buf : Option WriteBuffer) :
    (m.setBuffer p buf).content = m.content := rfl

@[simp] theorem Mount.setBuffer_handles (m : Mount) (p : Path) (buf : Option WriteBuffer) :
    (m.setBuffer p buf).handles = m.handles := rfl

@[simp] theorem Mount.setBuffer_nextHandle (m : Mount) (p : Path) (buf : Option WriteBuffer) :
    (m.setBuffer p buf).nextHandle = m.nextHandle := rfl

@[simp] theorem Mount.setHandle_client (m : Mount) (hid : Nat) (h : Option FileHandle) :
    (m.setHandle hid h).client = m.client := rfl

@[simp] theorem Mount.setHandle_ttl (m : Mount) (hid : Nat) (h : Option FileHandle) :
    (m.setHandle hid h).ttl = m.ttl := rfl

@[simp] theorem Mount.setHandle_gzipPassThrough (m : Mount) (hid : Nat) (h : Option FileHandle) :
    (m.setHandle hid h).gzipPassThrough = m.gzipPassThrough := rfl

@[simp] theorem Mount.setHandle_writeMode (m : Mount) (hid : Nat) (h : Option FileHandle) :
    (m.setHandle hid h).writeMode = m.writeMode := rfl

@[simp] theorem Mount.setHandle_gunzip (m : Mount) (hid : Nat) (h : Option FileHandle) :
    (m.setHandle hid h).gunzip = m.gunzip := rfl

@[simp] theorem Mount.setHandle_metadata (m : Mount) (hid : Nat) (h : Option FileHandle) :
    (m.setHandle hid h).metadata = m.metadata := rfl

@[simp] theorem Mount.setHandle_content (m : Mount) (hid : Nat) (h : Option FileHandle) :
    (m.setHandle hid h).content = m.content := rfl

@[simp] theorem Mount.setHandle_buffers (m : Mount) (hid : Nat) (h : Option FileHandle) :
    (m.setHandle hid h).buffers = m.buffers := rfl

@[simp] theorem Mount.setHandle_nextHandle (m : Mount) (hid : Nat) (h : Option FileHandle) :
    (m.setHandle hid h).nextHandle = m.nextHandle := rfl

@[simp] theorem Mount.insert_client (m : Mount) (p : Path) (a : Attributes) (now : Nat) :
    (m.insert p a now).client = m.client := rfl

@[simp] theorem Mount.insert_ttl (m : Mount) (p : Path) (a : Attributes) (now : Nat) :
    (m.insert p a now).ttl = m.ttl := rfl

@[simp] theorem Mount.insert_gzipPassThrough (m : Mount) (p : Path) (a : Attributes) (now : Nat) :
    (m.insert p a now).gzipPassThrough = m.gzipPassThrough := rfl

@[simp] theorem Mount.insert_writeMode (m : Mount) (p : Path) (a : Attributes) (now : Nat) :
    (m.insert p a now).writeMode = m.writeMode := rfl

@[simp] theorem Mount.insert_gunzip (m : Mount) (p : Path) (a : Attributes) (now : Nat) :
    (m.insert p a now).gunzip = m.gunzip := rfl

@[simp] theorem Mount.insert_content (m : Mount) (p : Path) (a : Attributes) (now : Nat) :
    (m.insert p a now).content = m.content := rfl

@[simp] theorem Mount.insert_buffers (m : Mount) (p : Path) (a : Attributes) (now : Nat) :
    (m.insert p a now).buffers = m.buffers := rfl

@[simp] theorem Mount.insert_handles (m : Mount) (p : Path) (a : Attributes) (now : Nat) :
    (m.insert p a now).handles = m.handles := rfl

@[simp] theorem Mount.insert_nextHandle (m : Mount) (p : Path) (a : Attributes) (now : Nat) :
    (m.insert p a now).nextHandle = m.nextHandle := rfl

@[simp] theorem Mount.invalidate_client (m : Mount) (p : Path) :
    (m.invalidate p).client = m.client := rfl

@[simp] theorem Mount.invalidate_ttl (m : Mount) (p : Path) :
    (m.invalidate p).ttl = m.ttl := rfl

@[simp] theorem Mount.invalidate_gzipPassThrough (m : Mount) (p : Path) :
    (m.invalidate p).gzipPassThrough = m.gzipPassThrough := rfl

@[simp] theorem Mount.invalidate_writeMode (m : Mount) (p : Path) :
    (m.invalidate p).writeMode = m.writeMode := rfl

@[simp] theorem Mount.invalidate_gunzip (m : Mount) (p : Path) :
    (m.invalidate p).gunzip = m.gunzip := rfl

@[simp] theorem Mount.invalidate_buffers (m : Mount) (p : Path) :
    (m.invalidate p).buffers = m.buffers := rfl

@[simp] theorem Mount.invalidate_handles (m : Mount) (p : Path) :
    (m.invalidate p).handles = m.handles := rfl

@[simp] theorem Mount.invalidate_nextHandle (m : Mount) (p : Path) :
    (m.invalidate p).nextHandle = m.nextHandle := rfl

@[simp] theorem Mount.markStale_client (m : Mount) (p : Path) :
    (m.markStale p).client = m.client := rfl

@[simp] theorem Mount.markStale_ttl (m : Mount) (p : Path) :
    (m.markStale p).ttl = m.ttl := rfl

@[simp] theorem Mount.markStale_gzipPassThrough (m : Mount) (p : Path) :
    (m.markStale p).gzipPassThrough = m.gzipPassThrough := rfl

@[simp] theorem Mount.markStale_writeMode (m : Mount) (p : Path) :
    (m.markStale p).writeMode = m.writeMode := rfl

@[simp] theorem Mount.markStale_gunzip (m : Mount) (p : Path) :
    (m.markStale p).gunzip = m.gunzip := rfl

@[simp] theorem Mount.markStale_metadata (m : Mount) (p : Path) :
    (m.markStale p).metadata = m.metadata := rfl

@[simp] theorem Mount.markStale_content (m : Mount) (p : Path) :
    (m.markStale p).content = m.content := rfl

@[simp] theorem Mount.markStale_buffers (m : Mount) (p : Path) :
    (m.markStale p).buffers = m.buffers := rfl

@[simp] theorem Mount.markStale_nextHandle (m : Mount) (p : Path) :
    (m.markStale p).nextHandle = m.nextHandle := rfl

@[simp] theorem Mount.bump_client (m : Mount) :
    (m.bump).client = m.client := rfl

@[simp] theorem Mount.bump_ttl (m : Mount) :
    (m.bump).ttl = m.ttl := rfl

@[simp] theorem Mount.bump_gzipPassThrough (m : Mount) :
    (m.bump).gzipPassThrough = m.gzipPassThrough := rfl

@[simp] theorem Mount.bump_writeMode (m : Mount) :
    (m.bump).writeMode = m.writeMode := rfl

@[simp] theorem Mount.bump_gunzip (m : Mount) :
    (m.bump).gunzip = m.gunzip := rfl

@[simp] theorem Mount.bump_metadata (m : Mount) :
    (m.bump).metadata = m.metadata := rfl

@[simp] theorem Mount.bump_content (m : Mount) :
    (m.bump).content = m.content := rfl

@[simp] theorem Mount.bump_buffers (m : Mount) :
    (m.bump).buffers = m.buffers := rfl

@[simp] theorem Mount.bump_handles (m : Mount) :
    (m.bump).handles = m.handles := rfl

@[simp] theorem Mount.refresh_client (m : Mount) (p : Path) (st : ObjectStat) (now : Nat) :
    (m.refresh p st now).client = m.client := by
  unfold Mount.refresh; dsimp only; split <;> rfl

@[simp] theorem Mount.refresh_ttl (m : Mount) (p : Path) (st : ObjectStat) (now : Nat) :
    (m.refresh p st now).ttl = m.ttl := by
  unfold Mount.refresh; dsimp only; split <;> rfl

@[simp] theorem Mount.refresh_gzipPassThrough (m : Mount) (p : Path) (st : ObjectStat) (now : Nat) :
    (m.refresh p st now).gzipPassThrough = m.gzipPassThrough := by
  unfold Mount.refresh; dsimp only; split <;> rfl

@[simp] theorem Mount.refresh_writeMode (m : Mount) (p : Path) (st : ObjectStat) (now : Nat) :
    (m.refresh p st now).writeMode = m.writeMode := by
  unfold Mount.refresh; dsimp only; split <;> rfl

@[simp] theorem Mount.refresh_gunzip (m : Mount) (p : Path) (st : ObjectStat) (now : Nat) :
    (m.refresh p st now).gunzip = m.gunzip := by
  unfold Mount.refresh; dsimp only; split <;> rfl

@[simp] theorem Mount.refresh_buffers (m : Mount) (p : Path) (st : ObjectStat) (now : Nat) :
    (m.refresh p st now).buffers = m.buffers := by
  unfold Mount.refresh; dsimp only; split <;> rfl

@[simp] theorem Mount.refresh_handles (m : Mount) (p : Path) (st : ObjectStat) (now : Nat) :
    (m.refresh p st now).handles = m.handles := by
  unfold Mount.refresh; dsimp only; split <;> rfl

@[simp] theorem Mount.refresh_nextHandle (m : Mount) (p : Path) (st : ObjectStat) (now : Nat) :
    (m.refresh p st now).nextHandle = m.nextHandle := by
  unfold Mount.refresh; dsimp only; split <;> rfl

@[simp] theorem Mount.setMetadata_metadata (m : Mount) (p : Path)
    (e : Option MetadataCacheEntry) (q : Path) :
    (m.setMetadata p e).metadata q = if q = p then e else m.metadata q := rfl

@[simp] theorem Mount.setContent_content (m : Mount) (p : Path)
    (blocks : List ContentCacheBlock) (q : Path) :
    (m.setContent p blocks).content q = if q = p then blocks else m.content q := rfl

@[simp] theorem Mount.setBuffer_buffers (m : Mount) (p : Path) (buf : Option WriteBuffer)
    (q : Path) :
    (m.setBuffer p buf).buffers q = if q = p then buf else m.buffers q := rfl

@[simp] theorem Mount.setHandle_handles (m : Mount) (hid : Nat) (h : Option FileHandle)
    (i : Nat) :
    (m.setHandle hid h).handles i = if i = hid then h else m.handles i := rfl

@[simp] theorem Mount.insert_metadata (m : Mount) (p : Path) (a : Attributes) (now : Nat)
    (q : Path) :
    (m.insert p a now).metadata q = if q = p then some ⟨a, now + m.ttl⟩ else m.metadata q :=
  rfl

@[simp] theorem Mount.invalidate_metadata (m : Mount) (p q : Path) :
    (m.invalidate p).metadata q = if q = p then none else m.metadata q := rfl

@[simp] theorem Mount.invalidate_content (m : Mount) (p q : Path) :
    (m.invalidate p).content q = if q = p then [] else m.content q := rfl

@[simp] theorem Mount.markStale_handles (m : Mount) (p : Path) (i : Nat) :
    (m.markStale p).handles i
      = (m.handles i).map (fun h => if h.path = p then { h with stale := true } else h) :=
  rfl

@[simp] theorem Mount.bump_nextHandle (m : Mount) : m.bump.nextHandle = m.nextHandle + 1 :=
  rfl

@[simp] theorem Backend.set_objects (b : Backend) (p : Path) (o : Option Object) (q : Path) :
    (b.set p o).objects q = if q = p then o else b.objects q := rfl

@[simp] theorem Backend.set_nextGeneration (b : Backend) (p : Path) (o : Option Object) :
    (b.set p o).nextGeneration = b.nextGeneration := rfl

@[simp] theorem Backend.bump_objects (b : Backend) : b.bump.objects = b.objects := rfl

@[simp] theorem Backend.bump_nextGeneration (b : Backend) :
    b.bump.nextGeneration = b.nextGeneration + 1 := rfl

theorem Mount.refresh_metadata_self (m : Mount) (p : Path) (st : ObjectStat) (now : Nat) :
    (m.refresh p st now).metadata p = some ⟨st.attrs, now + m.ttl⟩ := by
  unfold Mount.refresh; dsimp only; split <;> simp

end Fs

/-! ### Filesystem adapter: stat -/

namespace Fs

theorem statFile_of_buffer (now : Nat) (p : Path) (w : World) (buf : WriteBuffer)
    (hbuf : w.mount.buffers p = some buf) :
    statFile now p w = (.ok ⟨p.name, buf.bytes.length⟩, w) := by
  simp [statFile, hbuf]

theorem statFile_of_miss (now : Nat) (p : Path) (w : World) (o : Object)
    (hbuf : w.mount.buffers p = none) (hmiss : w.mount.lookup p now = none)
    (ho : w.backend.objects p = some o) :
    ∃ st : ObjectStat, w.backend.statObject p = .ok st ∧ st.attrs = o.attrs ∧
      statFile now p w
        = (.ok ⟨p.name, o.content.length⟩, { w with mount := w.mount.refresh p st now }) := by
  refine ⟨⟨o.generation, o.metageneration, o.content.length, o.gzip, o.stream.isNone,
    o.stream.map (fun s => s.owner)⟩, ?_, rfl, ?_⟩
  · simp [Backend.statObject, ho]
  · simp [statFile, hbuf, resolve, hmiss, Backend.statObject, ho, ObjectStat.attrs]

theorem statFile_of_hit (now : Nat) (p : Path) (w : World) (e : MetadataCacheEntry)
    (hbuf : w.mount.buffers p = none) (hhit : w.mount.lookup p now = some e) :
    statFile now p w = (.ok ⟨p.name, e.attrs.size⟩, w) := by
  simp [statFile, hbuf, resolve, hhit]

theorem statFile_of_absent (now : Nat) (p : Path) (w : World)
    (hbuf : w.mount.buffers p = none) (hmiss : w.mount.lookup p now = none)
    (ho : w.backend.objects p = none) :
    statFile now p w = (.error Errno.ENOENT, w) := by
  simp [statFile, hbuf, resolve, hmiss, Backend.statObject, ho, errorMapper]

theorem lookup_of_expired (m : Mount) (p : Path) (e : MetadataCacheEntry) (now : Nat)
    (he : m.metadata p = some e) (hexp : e.expiry ≤ now) : m.lookup p now = none := by
  simp [Mount.lookup, he, Nat.not_lt.mpr hexp]

theorem lookup_some_iff (m : Mount) (p : Path) (e : MetadataCacheEntry) (now : Nat) :
    m.lookup p now = some e ↔ m.metadata p = some e ∧ now < e.expiry := by
  unfold Mount.lookup
  cases h : m.metadata p with
  | none => simp
  | some e1 =>
    by_cases hlt : now < e1.expiry
    · simp only [hlt, if_true, Option.some.injEq]
      constructor
      · rintro rfl; exact ⟨rfl, hlt⟩
      · rintro ⟨h1, _⟩; exact h1
    · simp only [hlt, if_false]
      constructor
      · intro h0; cases h0
      · rintro ⟨h1, h2⟩
        cases h1
        exact absurd h2 hlt

theorem CreateUnfinalizedObject_new (client : Nat) (p : Path) (content : Bytes)
    (b : Backend) (hnew : b.objects p = none) :
    ∃ b1, CreateUnfinalizedObject client p content b = .ok b1 ∧
      b1.objects p = some ⟨b.nextGeneration, 1, [], false, some ⟨client, content⟩⟩ := by
  simp only [CreateUnfinalizedObject, Backend.openWriteStream, hnew, Backend.appendStream,
    Backend.bump_objects, Backend.set_objects, ↓reduceIte, List.nil_append]
  exact ⟨_, rfl, by simp⟩

theorem finalizeStream_own (b : Backend) (client : Nat) (p : Path) (o : Object)
    (bytes : Bytes) (ho : b.objects p = some o) (hs : o.stream = some ⟨client, bytes⟩) :
    ∃ b2, b.finalizeStream client p = .ok (b.nextGeneration, b2) ∧
      b2.objects p = some ⟨b.nextGeneration, 1, bytes, false, none⟩ ∧
      (∀ q, q ≠ p → b2.objects q = b.objects q) := by
  simp only [Backend.finalizeStream, ho, hs, ↓reduceIte]
  exact ⟨_, rfl, by simp, fun q hq => by simp [hq]⟩

/-- C1. An object created by a write-stream opened outside the mount, with content of any
size written to it and not finalized: a fresh stat through a mount with metadata cache TTL
0 succeeds and reports the object's name and size 0; once the stream is finalized, a stat
at any later time reports the size of the content. -/
theorem unfinalized_outside_reports_zero (w : World) (client : Nat) (p : Path)
    (content : Bytes) (t1 t2 : Nat)
    (hnew : w.backend.objects p = none) (hbuf : w.mount.buffers p = none)
    (httl : w.mount.ttl = 0) (hmiss : w.mount.lookup p t1 = none) (ht : t1 ≤ t2) :
    ∃ b1, CreateUnfinalizedObject client p content w.backend = .ok b1 ∧
    ∃ w1, statFile t1 p { w with backend := b1 } = (.ok ⟨p.name, 0⟩, w1) ∧
    ∃ g b2, w1.backend.finalizeStream client p = .ok (g, b2) ∧
    ∃ w2, statFile t2 p { w1 with backend := b2 }
      = (.ok ⟨p.name, content.length⟩, w2) := by
  -- the stream is opened and the content appended
  obtain ⟨b1, hb1, hobj1⟩ := CreateUnfinalizedObject_new client p content w.backend hnew
  refine ⟨b1, hb1, ?_⟩
  -- first stat: a miss, answered by the backend with the finalized size 0
  obtain ⟨st, -, -, hstat1⟩ :=
    statFile_of_miss t1 p { w with backend := b1 } _ hbuf hmiss hobj1
  refine ⟨_, hstat1, ?_⟩
  -- the outside writer finalizes
  obtain ⟨b2, hfin, hobj2, -⟩ := finalizeStream_own b1 client p _ content hobj1 rfl
  refine ⟨_, b2, hfin, ?_⟩
  -- second stat: the entry stored by the first stat has expired (TTL 0)
  have hexp : (w.mount.refresh p st t1).lookup p t2 = none := by
    apply lookup_of_expired _ _ _ _ (Mount.refresh_metadata_self _ _ _ _)
    simp [httl, ht]
  obtain ⟨st2, -, -, hstat2⟩ :=
    statFile_of_miss t2 p { mount := w.mount.refresh p st t1, backend := b2 } _
      (by simpa using hbuf) hexp hobj2
  exact ⟨_, hstat2⟩

end Fs

namespace Fs

/-- Witness for C1: a fresh mount with TTL 0 over the empty bucket, an outside writer 7
and three bytes of content. -/
theorem unfinalized_outside_reports_zero_witness :
    ∃ b1, CreateUnfinalizedObject 7 ⟨"dir", "obj"⟩ [1, 2, 3] Backend.empty = .ok b1 ∧
    ∃ w1, statFile 5 ⟨"dir", "obj"⟩ ⟨Mount.fresh 1 0 true .stream, b1⟩
      = (.ok ⟨"obj", 0⟩, w1) ∧
    ∃ g b2, w1.backend.finalizeStream 7 ⟨"dir", "obj"⟩ = .ok (g, b2) ∧
    ∃ w2, statFile 6 ⟨"dir", "obj"⟩ { w1 with backend := b2 } = (.ok ⟨"obj", 3⟩, w2) :=
  unfinalized_outside_reports_zero ⟨Mount.fresh 1 0 true .stream, Backend.empty⟩ 7
    ⟨"dir", "obj"⟩ [1, 2, 3] 5 6 rfl rfl rfl rfl (by decide)

theorem statFile_error (now : Nat) (p : Path) (w w1 : World) (e : Errno)
    (h : statFile now p w = (.error e, w1)) :
    e = Errno.ENOENT ∧ w1 = w ∧ w.backend.statObject p = .error .notFound ∧
      w.mount.buffers p = none ∧ w.mount.lookup p now = none ∧ w.backend.objects p = none := by
  cases hb : w.mount.buffers p with
  | some buf => rw [statFile_of_buffer now p w buf hb] at h; cases h
  | none =>
    cases hl : w.mount.lookup p now with
    | some e1 => rw [statFile_of_hit now p w e1 hb hl] at h; cases h
    | none =>
      cases ho : w.backend.objects p with
      | some o =>
        obtain ⟨st, -, -, hstat⟩ := statFile_of_miss now p w o hb hl ho
        rw [hstat] at h
        cases h
      | none =>
        rw [statFile_of_absent now p w hb hl ho] at h
        cases h
        exact ⟨rfl, rfl, by simp [Backend.statObject, ho], rfl, rfl, rfl⟩

/-- C5, counterexample. In a bucket whose directory "dir" holds an object named "\n" of
three bytes, the stat of that name through a fresh mount does not fail: it reports size
3. -/
theorem stat_newline_object_succeeds :
    (statFile 0 ⟨"dir", "\n"⟩ ⟨Mount.fresh 1 0 true .stream, newlineBucket⟩).1
      = .ok ⟨"\n", 3⟩ := by
  rfl

/-- C5, as amended. The Error Mapper sends not-found to ENOENT, precondition/generation
mismatch and superseded generation to ESTALE, permission-denied to EACCES and every other
status category to EIO; there are no error values but these four, and every one of them is
the image of some category. A stat through the mount fails exactly when the name has no
write buffer on the mount, no unexpired cached metadata and no object in the bucket; when
it fails, the backend has answered not-found, the error is the Error Mapper's image of
that status, exactly ENOENT, and the mount is unchanged. In particular this is so for the
name "\n" in a directory that holds no object of that name. -/
theorem errorMapper_taxonomy :
    errorMapper .notFound = Errno.ENOENT ∧
    errorMapper .preconditionFailed = Errno.ESTALE ∧
    errorMapper .supersededGeneration = Errno.ESTALE ∧
    errorMapper .permissionDenied = Errno.EACCES ∧
    (∀ s, s ≠ .notFound → s ≠ .preconditionFailed → s ≠ .supersededGeneration →
      s ≠ .permissionDenied → errorMapper s = Errno.EIO) ∧
    (∀ e : Errno, e = Errno.ENOENT ∨ e = Errno.ESTALE ∨ e = Errno.EACCES ∨ e = Errno.EIO) ∧
    (∀ e : Errno, ∃ s, errorMapper s = e) ∧
    (∀ (w : World) (p : Path) (now : Nat),
      (∃ e w1, statFile now p w = (.error e, w1)) ↔
        (w.mount.buffers p = none ∧ w.mount.lookup p now = none ∧
          w.backend.objects p = none)) ∧
    (∀ (w w1 : World) (p : Path) (now : Nat) (e : Errno),
      statFile now p w = (.error e, w1) →
        ∃ s, w.backend.statObject p = .error s ∧ s = .notFound ∧ e = errorMapper s ∧
          e = Errno.ENOENT ∧ w1 = w) ∧
    (∀ (w : World) (dir : String) (now : Nat),
      w.backend.objects ⟨dir, "\n"⟩ = none → w.mount.buffers ⟨dir, "\n"⟩ = none →
      w.mount.lookup ⟨dir, "\n"⟩ now = none →
      statFile now ⟨dir, "\n"⟩ w = (.error Errno.ENOENT, w)) := by
  refine ⟨rfl, rfl, rfl, rfl, ?_, ?_, ?_, ?_, ?_, ?_⟩
  · intro s h1 h2 h3 h4
    cases s <;> first | rfl | contradiction
  · intro e
    cases e <;> simp
  · intro e
    cases e
    · exact ⟨.notFound, rfl⟩
    · exact ⟨.preconditionFailed, rfl⟩
    · exact ⟨.permissionDenied, rfl⟩
    · exact ⟨.transport, rfl⟩
  · intro w p now
    constructor
    · rintro ⟨e, w1, h⟩
      obtain ⟨-, -, -, hb, hl, ho⟩ := statFile_error now p w w1 e h
      exact ⟨hb, hl, ho⟩
    · rintro ⟨hb, hl, ho⟩
      exact ⟨_, _, statFile_of_absent now p w hb hl ho⟩
  · intro w w1 p now e h
    obtain ⟨he, hw, hs, -⟩ := statFile_error now p w w1 e h
    exact ⟨.notFound, hs, rfl, by rw [he]; rfl, he, hw⟩
  · intro w dir now ho hbuf hmiss
    exact statFile_of_absent now _ w hbuf hmiss ho

/-- Witness for C5, as amended: a status outside the four named ones; and the stat of
"\n" through a fresh mount in the directory "dir", which exists (it holds the object "a")
and holds no object of that name. -/
theorem errorMapper_taxonomy_witness :
    errorMapper (.other 503) = Errno.EIO ∧
    statFile 0 ⟨"dir", "\n"⟩ ⟨Mount.fresh 1 0 true .stream, plainBucket⟩
      = (.error Errno.ENOENT, ⟨Mount.fresh 1 0 true .stream, plainBucket⟩) ∧
    plainBucket.objects ⟨"dir", "a"⟩ = some ⟨1, 1, [7], false, none⟩ :=
  ⟨errorMapper_taxonomy.2.2.2.2.1 (.other 503) (by decide) (by decide) (by decide)
      (by decide),
   errorMapper_taxonomy.2.2.2.2.2.2.2.2.2 ⟨Mount.fresh 1 0 true .stream, plainBucket⟩ "dir" 0
      rfl rfl rfl,
   rfl⟩

/-! ### Filesystem adapter: writing through a handle -/

theorem createFile_writing (p : Path) (w : World) (hbuf : w.mount.buffers p = none)
    (hstream : ∀ o, w.backend.objects p = some o → o.stream = none) :
    ∃ w1, createFile p w = (.ok w.mount.nextHandle, w1) ∧
      Writing w1 p w.mount.nextHandle [] := by
  unfold createFile
  simp only [hbuf]
  cases hmode : w.mount.writeMode with
  | stream =>
    dsimp only
    cases ho : w.backend.objects p with
    | none =>
      simp only [Backend.openWriteStream, ho, Backend.statObject, Backend.bump_objects,
        Backend.set_objects, ↓reduceIte]
      refine ⟨_, rfl, ?_⟩
      simp [Writing]
    | some o =>
      have hs := hstream o ho
      simp only [Backend.openWriteStream, ho, hs, Backend.statObject,
        Backend.set_objects, ↓reduceIte]
      refine ⟨_, rfl, ?_⟩
      simp [Writing]
  | buffered =>
    dsimp only
    refine ⟨_, rfl, ?_⟩
    cases ho : w.backend.objects p with
    | none => simp [Writing, isCurrent, Backend.statObject, ho]
    | some o =>
      have hs := hstream o ho
      simp [Writing, isCurrent, Backend.statObject, ho, hs, ObjectStat.attrs]

theorem writeFile_writing (now : Nat) (p : Path) (fh : Nat) (bytes data : Bytes) (w : World)
    (hw : Writing w p fh bytes) :
    ∃ w1, writeFile now fh data w = (.ok data.length, w1) ∧
      Writing w1 p fh (bytes ++ data) := by
  obtain ⟨a, buf, hh, hb, hown, hbytes, hmode⟩ := hw
  subst hown hbytes
  unfold writeFile
  simp only [hh, hb, Option.filter, decide_True, Bool.false_eq_true, ↓reduceIte]
  refine ⟨_, rfl, ?_⟩
  have hmode1 : (buf.mode = .stream ∧ buf.durable ≤ (buf.bytes ++ data).length ∧
        ∃ o, w.backend.objects p = some o ∧
          o.stream = some ⟨w.mount.client, (buf.bytes ++ data).take buf.durable⟩) ∨
      (buf.mode = .buffered ∧ isCurrent w.backend ⟨p, a, false⟩ = true) := by
    rcases hmode with ⟨hm, hd, o, ho, hs⟩ | ⟨hm, hc⟩
    · refine Or.inl ⟨hm, ?_, o, ho, ?_⟩
      · simp only [List.length_append]; omega
      · rw [List.take_append_of_le_length hd]
        exact hs
    · exact Or.inr ⟨hm, hc⟩
  cases a with
  | none =>
    refine ⟨none, { buf with bytes := buf.bytes ++ data }, ?_, ?_, rfl, rfl, ?_⟩
    · simpa using hh
    · simp
    · simpa using hmode1
  | some a0 =>
    refine ⟨some a0, { buf with bytes := buf.bytes ++ data }, ?_, ?_, rfl, rfl, ?_⟩
    · simpa using hh
    · simp
    · simpa using hmode1

end Fs

namespace Fs

theorem Synced.writing {w : World} {p : Path} {fh : Nat} {bytes : Bytes} {t : Nat}
    (h : Synced w p fh bytes t) : Writing w p fh bytes := by
  obtain ⟨a, buf, hh, hb, hown, hbytes, hmode⟩ := h
  refine ⟨a, buf, hh, hb, hown, hbytes, ?_⟩
  rcases hmode with ⟨hm, hd, o, ho, hs⟩ | ⟨hm, o, ho, hc, hs, ha, -⟩
  · refine Or.inl ⟨hm, by omega, o, ho, ?_⟩
    rw [hd, List.take_length]
    exact hs
  · refine Or.inr ⟨hm, ?_⟩
    subst ha
    simp [isCurrent, Backend.statObject, ho, hs]

theorem syncFile_writing (now : Nat) (p : Path) (fh : Nat) (bytes : Bytes) (w : World)
    (hw : Writing w p fh bytes) :
    ∃ w1, syncFile now fh w = (.ok (), w1) ∧ Synced w1 p fh bytes now := by
  obtain ⟨a, buf, hh, hb, hown, hbytes, hmode⟩ := hw
  subst hown hbytes
  unfold syncFile
  simp only [hh, hb, Option.filter, decide_True, Bool.false_eq_true, ↓reduceIte]
  rcases hmode with ⟨hm, hd, o, ho, hs⟩ | ⟨hm, hc⟩
  · simp only [hm, Backend.appendStream, ho, hs, ↓reduceIte, List.take_append_drop]
    refine ⟨_, rfl, ?_⟩
    refine ⟨a, { buf with durable := buf.bytes.length }, ?_, ?_, rfl, rfl, ?_⟩
    · simpa using hh
    · simp [hm]
    · simp [hm]
  · simp only [hm, hc, ↓reduceIte, Backend.createObject]
    refine ⟨_, rfl, ?_⟩
    refine ⟨some ⟨buf.bytes.length, w.backend.nextGeneration, false⟩,
      { buf with durable := buf.bytes.length }, ?_, ?_, rfl, rfl, ?_⟩
    · simp
    · simp [hm]
    · simp [hm]

end Fs

namespace Fs

theorem finalize_writing (now : Nat) (p : Path) (fh : Nat) (bytes : Bytes) (w : World)
    (hw : Writing w p fh bytes) :
    ∃ w1, finalize now fh w = (.ok (), w1) ∧ Finalized w1 p fh bytes now := by
  obtain ⟨w1, hsync, a, buf, hh, hb, hown, hbytes, hmode⟩ := syncFile_writing now p fh bytes w hw
  subst hown hbytes
  unfold finalize
  simp only [hsync, hh, hb, Option.filter, decide_True, ↓reduceIte]
  rcases hmode with ⟨hm, -, o, ho, hs⟩ | ⟨hm, o, ho, hc, hs, ha, hmeta⟩
  · simp only [hm, Backend.finalizeStream, ho, hs, ↓reduceIte]
    refine ⟨_, rfl, ?_⟩
    refine ⟨by simp, ⟨w1.backend.nextGeneration, 1, buf.bytes, false, none⟩, ?_, rfl, rfl,
      ?_, ?_⟩
    · simp
    · simp
    · simp
  · simp only [hm]
    refine ⟨_, rfl, ?_⟩
    refine ⟨by simp, o, ho, hc, hs, ?_, ?_⟩
    · subst ha
      simpa using hh
    · simpa using hmeta

theorem closeFile_writing (now : Nat) (p : Path) (fh : Nat) (bytes : Bytes) (w : World)
    (hw : Writing w p fh bytes) :
    ∃ w1, closeFile now fh w = (.ok (), w1) ∧ w1.mount.buffers p = none ∧
      ∃ o, w1.backend.objects p = some o ∧ o.content = bytes ∧
        ∀ e, w1.mount.metadata p = some e → e.attrs.size = o.content.length := by
  obtain ⟨w1, hfin, hb, o, ho, hc, -, hh, hmeta⟩ := finalize_writing now p fh bytes w hw
  unfold closeFile
  simp only [hfin]
  refine ⟨_, rfl, ?_, o, ho, hc, ?_⟩
  · simp [Mount.release, hh, hb, Option.filter]
  · intro e he
    simp only [Mount.release, hh, hb, Option.filter, Mount.setHandle_metadata, hmeta,
      Option.some.injEq] at he
    subst he
    simp [hc]

theorem statFile_coherent (now : Nat) (p : Path) (w : World) (o : Object)
    (hbuf : w.mount.buffers p = none) (ho : w.backend.objects p = some o)
    (hmeta : ∀ e, w.mount.metadata p = some e → e.attrs.size = o.content.length) :
    ∃ w1, statFile now p w = (.ok ⟨p.name, o.content.length⟩, w1) ∧
      w1.backend = w.backend ∧ w1.mount.buffers = w.mount.buffers ∧
      w1.mount.handles = w.mount.handles := by
  cases hl : w.mount.lookup p now with
  | none =>
    obtain ⟨st, -, -, hstat⟩ := statFile_of_miss now p w o hbuf hl ho
    exact ⟨_, hstat, rfl, by simp, by simp⟩
  | some e =>
    have he := ((lookup_some_iff _ _ _ _).1 hl).1
    rw [statFile_of_hit now p w e hbuf hl, hmeta e he]
    exact ⟨w, rfl, rfl, rfl, rfl⟩

theorem writeFile_stale (now fh : Nat) (data : Bytes) (w : World) (h : FileHandle)
    (hh : w.mount.handles fh = some h) (hs : h.stale = true) :
    writeFile now fh data w = (.error Errno.ESTALE, w) := by
  simp [writeFile, hh, hs]

end Fs

namespace Fs

theorem crossMount_writing (p : Path) (fh : Nat) (bytes : Bytes) (w : World)
    (hw : Writing w p fh bytes) : crossMount w p = false := by
  obtain ⟨a, buf, -, hb, -, -, hmode⟩ := hw
  rcases hmode with ⟨hm, -, o, ho, hs⟩ | ⟨hm, hc⟩
  · simp [crossMount, Backend.statObject, ho, hs]
  · cases ho : w.backend.objects p with
    | none => simp [crossMount, Backend.statObject, ho]
    | some o =>
      cases a with
      | none => simp [isCurrent, Backend.statObject, ho] at hc
      | some a0 =>
        simp only [isCurrent, Backend.statObject, ho, Bool.and_eq_true,
          Option.isNone_iff_eq_none] at hc
        simp [crossMount, Backend.statObject, ho, hc.2]

theorem renameFile_writing (now : Nat) (p q : Path) (fh : Nat) (bytes : Bytes) (w : World)
    (hw : Writing w p fh bytes) (hne : q ≠ p) :
    ∃ w1, renameFile now p q w = (.ok (), w1) ∧
      w1.backend.statObject p = .error .notFound ∧
      w1.backend.download q = .ok bytes ∧
      ∃ h, w1.mount.handles fh = some h ∧ h.stale = true := by
  have hcross := crossMount_writing p fh bytes w hw
  obtain ⟨w1, hfin, hb1, o, ho, hc, -, hh, -⟩ := finalize_writing now p fh bytes w hw
  obtain ⟨a, buf, -, hb, hown, -, -⟩ := hw
  subst hown
  have hpq : p ≠ q := fun h => hne h.symm
  unfold renameFile
  simp only [hcross, Bool.false_eq_true, ↓reduceIte, settle, hb, hfin, Backend.statObject, ho,
    Backend.copyObject, Backend.deleteObject, Backend.bump_objects, Backend.set_objects, hpq]
  refine ⟨_, rfl, ?_, ?_, ?_⟩
  · simp
  · simp [Backend.download, hne, hc]
  · simp [hh]

theorem CreateUnfinalizedObject_stream (client : Nat) (p : Path) (content : Bytes)
    (b : Backend) (hfree : ∀ o, b.objects p = some o → o.stream = none) :
    ∃ b1 o1, CreateUnfinalizedObject client p content b = .ok b1 ∧
      b1.objects p = some o1 ∧ o1.stream = some ⟨client, content⟩ := by
  cases ho : b.objects p with
  | none =>
    obtain ⟨b1, hb1, hobj⟩ := CreateUnfinalizedObject_new client p content b ho
    exact ⟨b1, _, hb1, hobj, rfl⟩
  | some o =>
    have hs := hfree o ho
    simp only [CreateUnfinalizedObject, Backend.openWriteStream, ho, hs, Backend.appendStream,
      Backend.set_objects, ↓reduceIte, List.nil_append]
    exact ⟨_, { o with stream := some ⟨client, content⟩ }, rfl, by simp, rfl⟩

/-- C3. Whatever the state of the mount, if the object at the old name is unfinalized (it
has a live write-stream) and the writer that holds the stream is not the mount issuing
the rename, then rename of that name to any new name fails, the error is exactly EIO, and
neither the mount nor the bucket has changed. In particular this is what happens after a
writer other than the mount has created an unfinalized object, with any content, at a
name that had no live stream. -/
theorem rename_cross_mount_io_error (w : World) (now : Nat) (old new : Path) :
    (∀ (o : Object) (s : WriteStream),
      w.backend.objects old = some o → o.stream = some s → s.owner ≠ w.mount.client →
      renameFile now old new w = (.error Errno.EIO, w)) ∧
    (∀ (client : Nat) (content : Bytes),
      client ≠ w.mount.client →
      (∀ o, w.backend.objects old = some o → o.stream = none) →
      ∃ b1, CreateUnfinalizedObject client old content w.backend = .ok b1 ∧
        renameFile now old new { w with backend := b1 }
          = (.error Errno.EIO, { w with backend := b1 })) := by
  have hrule : ∀ (w1 : World) (o : Object) (s : WriteStream),
      w1.backend.objects old = some o → o.stream = some s → s.owner ≠ w1.mount.client →
      renameFile now old new w1 = (.error Errno.EIO, w1) := by
    intro w1 o s ho hs hother
    have hcross : crossMount w1 old = true := by
      simp [crossMount, Backend.statObject, ho, hs, hother]
    unfold renameFile
    rw [if_pos hcross]
  refine ⟨hrule w, ?_⟩
  intro client content hother hfree
  obtain ⟨b1, o1, hb1, hobj, hs⟩ := CreateUnfinalizedObject_stream client old content
    w.backend hfree
  exact ⟨b1, hb1, hrule { w with backend := b1 } o1 _ hobj hs hother⟩

/-- Witness for C3: the mount (client 1) created the file in stream mode and still has the
WriteBuffer and a stale handle for it; the object was deleted behind its back and is now
an unfinalized object of the outside writer 7. The rename fails with EIO. So does the
rename by a fresh mount of an object the outside writer 7 has just created. -/
theorem rename_cross_mount_io_error_witness :
    renameFile 3 ⟨"dir", "obj"⟩ ⟨"dir", "Newobj"⟩ staleBufferWorld
      = (.error Errno.EIO, staleBufferWorld) ∧
    ∃ b1, CreateUnfinalizedObject 7 ⟨"dir", "obj"⟩ [1, 2, 3] Backend.empty = .ok b1 ∧
      renameFile 3 ⟨"dir", "obj"⟩ ⟨"dir", "Newobj"⟩ ⟨Mount.fresh 1 0 true .stream, b1⟩
        = (.error Errno.EIO, ⟨Mount.fresh 1 0 true .stream, b1⟩) :=
  ⟨(rename_cross_mount_io_error staleBufferWorld 3 ⟨"dir", "obj"⟩ ⟨"dir", "Newobj"⟩).1
      ⟨2, 1, [], false, some ⟨7, [1, 2, 3]⟩⟩ ⟨7, [1, 2, 3]⟩ rfl rfl (by decide),
   (rename_cross_mount_io_error ⟨Mount.fresh 1 0 true .stream, Backend.empty⟩ 3
      ⟨"dir", "obj"⟩ ⟨"dir", "Newobj"⟩).2 7 [1, 2, 3] (by decide) (fun o h => nomatch h)⟩

end Fs

namespace Fs

/-- C2. A file created through the mount at a name that no other writer is streaming to,
written and synced but not closed, is renamed to any other name: every step succeeds;
afterwards the old name is not found in the backend, the object at the new name holds
exactly the content that was written, and every later write through the handle still open
on the old name fails with ESTALE. This holds in both WriteBuffer modes. -/
theorem rename_moves_content_and_stales_handle (w : World) (a b : Path) (content : Bytes)
    (t1 t2 t3 : Nat)
    (hbuf : w.mount.buffers a = none)
    (hstream : ∀ o, w.backend.objects a = some o → o.stream = none)
    (hne : b ≠ a) :
    ∃ fh w1, createFile a w = (.ok fh, w1) ∧
    ∃ w2, writeFile t1 fh content w1 = (.ok content.length, w2) ∧
    ∃ w3, syncFile t2 fh w2 = (.ok (), w3) ∧
    ∃ w4, renameFile t3 a b w3 = (.ok (), w4) ∧
      w4.backend.statObject a = .error .notFound ∧
      w4.backend.download b = .ok content ∧
      ∀ (t : Nat) (data : Bytes), writeFile t fh data w4 = (.error Errno.ESTALE, w4) := by
  obtain ⟨w1, hcreate, hw1⟩ := createFile_writing a w hbuf hstream
  obtain ⟨w2, hwrite, hw2⟩ := writeFile_writing t1 a _ [] content w1 hw1
  obtain ⟨w3, hsync, hw3⟩ := syncFile_writing t2 a _ _ w2 hw2
  obtain ⟨w4, hren, hgone, hthere, h, hh, hstale⟩ :=
    renameFile_writing t3 a b _ _ w3 hw3.writing hne
  rw [List.nil_append] at hthere
  exact ⟨_, w1, hcreate, w2, hwrite, w3, hsync, w4, hren, hgone, hthere,
    fun t data => writeFile_stale t _ data w4 h hh hstale⟩

/-- Witness for C2: a fresh stream-mode mount over the empty bucket. -/
theorem rename_moves_content_and_stales_handle_witness :
    ∃ fh w1, createFile ⟨"dir", "f"⟩ ⟨Mount.fresh 1 0 true .stream, Backend.empty⟩
      = (.ok fh, w1) ∧
    ∃ w2, writeFile 1 fh [10, 20] w1 = (.ok 2, w2) ∧
    ∃ w3, syncFile 2 fh w2 = (.ok (), w3) ∧
    ∃ w4, renameFile 3 ⟨"dir", "f"⟩ ⟨"dir", "newf"⟩ w3 = (.ok (), w4) ∧
      w4.backend.statObject ⟨"dir", "f"⟩ = .error .notFound ∧
      w4.backend.download ⟨"dir", "newf"⟩ = .ok [10, 20] ∧
      ∀ (t : Nat) (data : Bytes), writeFile t fh data w4 = (.error Errno.ESTALE, w4) :=
  rename_moves_content_and_stales_handle ⟨Mount.fresh 1 0 true .stream, Backend.empty⟩
    ⟨"dir", "f"⟩ ⟨"dir", "newf"⟩ [10, 20] 1 2 3 rfl (fun o h => by cases h) (by decide)

/-- C4. A file created through the mount at a name that no other writer is streaming to:
after N bytes are written without closing and the handle is synced, a stat of the path
through the same mount reports size N; after N more bytes are written through the same
handle and the handle is closed, a stat reports size 2N. Every step succeeds, at every
metadata cache TTL and in both WriteBuffer modes. -/
theorem same_mount_reports_written_size (w : World) (p : Path) (c1 c2 : Bytes) (N : Nat)
    (t1 t2 t3 t4 t5 t6 : Nat)
    (hc1 : c1.length = N) (hc2 : c2.length = N)
    (hbuf : w.mount.buffers p = none)
    (hstream : ∀ o, w.backend.objects p = some o → o.stream = none) :
    ∃ fh w1, createFile p w = (.ok fh, w1) ∧
    ∃ w2, writeFile t1 fh c1 w1 = (.ok N, w2) ∧
    ∃ w3, syncFile t2 fh w2 = (.ok (), w3) ∧
    ∃ w4, statFile t3 p w3 = (.ok ⟨p.name, N⟩, w4) ∧
    ∃ w5, writeFile t4 fh c2 w4 = (.ok N, w5) ∧
    ∃ w6, closeFile t5 fh w5 = (.ok (), w6) ∧
    ∃ w7, statFile t6 p w6 = (.ok ⟨p.name, 2 * N⟩, w7) := by
  obtain ⟨w1, hcreate, hw1⟩ := createFile_writing p w hbuf hstream
  obtain ⟨w2, hwrite, hw2⟩ := writeFile_writing t1 p _ [] c1 w1 hw1
  obtain ⟨w3, hsync, hw3⟩ := syncFile_writing t2 p _ _ w2 hw2
  have hw3w := hw3.writing
  obtain ⟨a3, buf3, -, hb3, -, hbytes3, -⟩ := hw3w
  have hstat := statFile_of_buffer t3 p w3 buf3 hb3
  obtain ⟨w5, hwrite2, hw5⟩ := writeFile_writing t4 p _ _ c2 w3 hw3.writing
  obtain ⟨w6, hclose, hb6, o, ho, hc, hmeta⟩ := closeFile_writing t5 p _ _ w5 hw5
  obtain ⟨w7, hstat2, -⟩ := statFile_coherent t6 p w6 o hb6 ho hmeta
  have hlen1 : buf3.bytes.length = N := by rw [hbytes3]; simpa using hc1
  have hlen2 : o.content.length = 2 * N := by
    rw [hc]; simp only [List.length_append, List.length_nil]; omega
  rw [hlen1] at hstat
  rw [hlen2] at hstat2
  rw [hc1] at hwrite
  rw [hc2] at hwrite2
  exact ⟨_, w1, hcreate, w2, hwrite, w3, hsync, w3, hstat, w5, hwrite2, w6, hclose, w7, hstat2⟩

/-- Witness for C4: a fresh buffered-mode mount with TTL 60 over the empty bucket, two
writes of two bytes. -/
theorem same_mount_reports_written_size_witness :
    ∃ fh w1, createFile ⟨"dir", "f"⟩ ⟨Mount.fresh 1 60 true .buffered, Backend.empty⟩
      = (.ok fh, w1) ∧
    ∃ w2, writeFile 1 fh [10, 20] w1 = (.ok 2, w2) ∧
    ∃ w3, syncFile 2 fh w2 = (.ok (), w3) ∧
    ∃ w4, statFile 3 ⟨"dir", "f"⟩ w3 = (.ok ⟨"f", 2⟩, w4) ∧
    ∃ w5, writeFile 4 fh [30, 40] w4 = (.ok 2, w5) ∧
    ∃ w6, closeFile 5 fh w5 = (.ok (), w6) ∧
    ∃ w7, statFile 6 ⟨"dir", "f"⟩ w6 = (.ok ⟨"f", 2 * 2⟩, w7) :=
  same_mount_reports_written_size ⟨Mount.fresh 1 60 true .buffered, Backend.empty⟩
    ⟨"dir", "f"⟩ [10, 20] [30, 40] 2 1 2 3 4 5 6 rfl rfl rfl (fun o h => by cases h)

end Fs

/-! ### Filesystem adapter: reading -/

namespace Fs

theorem take_length_take (l : Bytes) (n : Nat) : l.take (l.take n).length = l.take n := by
  rw [List.length_take]
  rcases Nat.le_total n l.length with h | h
  · rw [Nat.min_eq_left h]
  · rw [Nat.min_eq_right h, List.take_length, List.take_of_length_le h]

theorem block_range (c : Bytes) (a L off len : Nat) (h1 : a ≤ off)
    (h2 : off + len ≤ a + ((c.drop a).take L).length) :
    (((c.drop a).take L).drop (off - a)).take len = (c.drop off).take len := by
  rw [List.drop_take, List.drop_drop, List.take_take]
  have hL : ((c.drop a).take L).length ≤ L := by simp [List.length_take]
  have e1 : a + (off - a) = off := by omega
  have e2 : min len (L - (off - a)) = len := by omega
  rw [e1, e2]

theorem block_serves (c blk : Bytes) (a off len : Nat)
    (hblk : blk = (c.drop a).take blk.length) (h1 : a ≤ off)
    (h2 : off + len ≤ a + blk.length) :
    (blk.drop (off - a)).take len = (c.drop off).take len := by
  have h := block_range c a blk.length off len h1 (by rw [← hblk]; exact h2)
  rw [← hblk] at h
  exact h

theorem cacheFind_coherent (m : Mount) (p : Path) (o : Object) (off len : Nat)
    (bytes : Bytes) (hc : ContentCoherent m p o)
    (hfind : cacheFind (m.content p) o.generation off len = some bytes) :
    bytes = (o.content.drop off).take len := by
  unfold cacheFind at hfind
  split at hfind
  · rename_i blk hblk
    have hmem := List.mem_of_find?_eq_some hblk
    have hprop := List.find?_some hblk
    simp only [decide_eq_true_eq] at hprop
    obtain ⟨hg, h1, h2⟩ := hprop
    cases hfind
    exact block_serves o.content blk.bytes blk.offset off len (hc blk hmem hg) h1 h2
  · cases hfind

theorem readReady_of_mount (w : World) (p : Path) (o : Object) (m : Mount)
    (h : ReadReady w p o) (hb : m.buffers p = w.mount.buffers p)
    (hz : m.gzipPassThrough = w.mount.gzipPassThrough)
    (hm : MetadataCoherent m p o) (hc : ContentCoherent m p o) :
    ReadReady { w with mount := m } p o :=
  ⟨h.1, hb.trans h.2.1, by simpa [hz] using h.2.2.1, hm, hc⟩

theorem refresh_coherent (m : Mount) (p : Path) (o : Object) (st : ObjectStat) (now : Nat)
    (hst : st.attrs = o.attrs) (hc : ContentCoherent m p o) :
    MetadataCoherent (m.refresh p st now) p o ∧ ContentCoherent (m.refresh p st now) p o := by
  constructor
  · intro e he
    rw [Mount.refresh_metadata_self] at he
    cases he
    exact hst
  · intro blk hblk hg
    unfold Mount.refresh at hblk
    dsimp only at hblk
    split at hblk
    · simp at hblk
    · exact hc blk (by simpa [Mount.insert] using hblk) hg

theorem openFile_ready (now : Nat) (p : Path) (o : Object) (w : World)
    (h : ReadReady w p o) :
    ∃ w1, openFile now p w = (.ok w.mount.nextHandle, w1) ∧ ReadReady w1 p o ∧
      w1.mount.handles w.mount.nextHandle = some ⟨p, some o.attrs, false⟩ := by
  obtain ⟨ho, hb, hz, hm, hc⟩ := h
  unfold openFile resolve
  cases hl : w.mount.lookup p now with
  | some e =>
    have he := hm e ((lookup_some_iff _ _ _ _).1 hl).1
    simp only [he]
    refine ⟨_, rfl, ?_, by simp⟩
    exact readReady_of_mount w p o _ ⟨ho, hb, hz, hm, hc⟩ (by simp) (by simp)
      (fun e1 he1 => hm e1 (by simpa using he1))
      (fun blk hblk hg => hc blk (by simpa using hblk) hg)
  | none =>
    have hst : (⟨o.generation, o.metageneration, o.content.length, o.gzip,
        o.stream.isNone, o.stream.map (fun s => s.owner)⟩ : ObjectStat).attrs = o.attrs :=
      rfl
    simp only [Backend.statObject, ho, hst, Mount.refresh_nextHandle]
    obtain ⟨hm1, hc1⟩ := refresh_coherent w.mount p o _ now hst hc
    refine ⟨_, rfl, ?_, by simp⟩
    exact readReady_of_mount w p o _ ⟨ho, hb, hz, hm, hc⟩ (by simp) (by simp)
      (fun e1 he1 => hm1 e1 (by simpa using he1))
      (fun blk hblk hg => hc1 blk (by simpa using hblk) hg)

theorem readFile_ready (hid off len : Nat) (p : Path) (o : Object) (w : World)
    (h : ReadReady w p o) (hh : w.mount.handles hid = some ⟨p, some o.attrs, false⟩) :
    ∃ w1, readFile hid off len w = (.ok ((o.content.drop off).take len), w1) ∧
      ReadReady w1 p o ∧ w1.mount.handles hid = some ⟨p, some o.attrs, false⟩ := by
  obtain ⟨ho, hb, hz, hm, hc⟩ := h
  unfold readFile
  simp only [hh, hb, Option.filter, Bool.false_eq_true, ↓reduceIte]
  have hgen : o.attrs.generation = o.generation := rfl
  cases hf : cacheFind (w.mount.content p) o.attrs.generation off len with
  | some bytes =>
    rw [hgen] at hf
    rw [cacheFind_coherent w.mount p o off len bytes hc hf]
    exact ⟨w, rfl, ⟨ho, hb, hz, hm, hc⟩, hh⟩
  | none =>
    have hfetch : fetch w.mount w.backend p o.attrs off len
        = .ok ((o.content.drop off).take len) := by
      have hcond : (w.mount.gzipPassThrough || !o.attrs.gzip) = true := by
        rcases hz with hz | hz
        · simp [hz]
        · simp [Object.attrs, hz]
      unfold fetch
      rw [if_pos hcond]
      simp [Backend.readRange, ho, Object.attrs]
    simp only [hfetch]
    refine ⟨_, rfl, ?_, by simpa using hh⟩
    refine readReady_of_mount w p o _ ⟨ho, hb, hz, hm, hc⟩ (by simp) (by simp)
      (fun e1 he1 => hm e1 (by simpa using he1)) ?_
    intro blk hblk hg
    simp only [Mount.setContent_content, ↓reduceIte, List.mem_cons] at hblk
    rcases hblk with rfl | hblk
    · exact (take_length_take _ _).symm
    · exact hc blk hblk hg

theorem closeFile_ready (now hid : Nat) (p : Path) (o : Object) (a : Option Attributes)
    (w : World) (h : ReadReady w p o) (hh : w.mount.handles hid = some ⟨p, a, false⟩) :
    ∃ w1, closeFile now hid w = (.ok (), w1) ∧ ReadReady w1 p o := by
  obtain ⟨ho, hb, hz, hm, hc⟩ := h
  have hsync : syncFile now hid w = (.ok (), w) := by
    simp [syncFile, hh, hb, Option.filter]
  have hfin : finalize now hid w = (.ok (), w) := by
    simp [finalize, hsync, hh, hb, Option.filter]
  unfold closeFile
  simp only [hfin]
  refine ⟨_, rfl, ?_⟩
  have hrel : w.mount.release hid = w.mount.setHandle hid none := by
    simp [Mount.release, hh, hb, Option.filter]
  rw [hrel]
  exact readReady_of_mount w p o _ ⟨ho, hb, hz, hm, hc⟩ (by simp) (by simp)
    (fun e1 he1 => hm e1 (by simpa using he1))
    (fun blk hblk hg => hc blk (by simpa using hblk) hg)

theorem ReadChunkFromFile_ready (now : Nat) (p : Path) (o : Object) (len off : Nat)
    (w : World) (h : ReadReady w p o) :
    ∃ w1, ReadChunkFromFile now p len off w = (.ok ((o.content.drop off).take len), w1) ∧
      ReadReady w1 p o := by
  obtain ⟨w1, hopen, hr1, hh1⟩ := openFile_ready now p o w h
  obtain ⟨w2, hread, hr2, hh2⟩ := readFile_ready w.mount.nextHandle off len p o w1 hr1 hh1
  obtain ⟨w3, hclose, hr3⟩ := closeFile_ready now w.mount.nextHandle p o _ w2 hr2 hh2
  refine ⟨w3, ?_, hr3⟩
  unfold ReadChunkFromFile
  simp only [hopen, hread, hclose]

theorem rangedReads_ready (now : Nat) (p : Path) (o : Object) (S : Nat) (ms : List Nat) :
    ∀ w : World, ReadReady w p o →
      (rangedReads now p S ms w).1
        = ms.map (fun m =>
            .ok ((o.content.drop (m * Gzip.readOffset S)).take (Gzip.readSize S))) ∧
      ReadReady (rangedReads now p S ms w).2 p o := by
  induction ms with
  | nil => intro w h; exact ⟨rfl, h⟩
  | cons m ms ih =>
    intro w h
    obtain ⟨w1, hread, hr1⟩ :=
      ReadChunkFromFile_ready now p o (Gzip.readSize S) (m * Gzip.readOffset S) w h
    obtain ⟨hrest, hr2⟩ := ih w1 hr1
    refine ⟨?_, ?_⟩
    · simp only [rangedReads, hread, List.map_cons, hrest]
    · simpa only [rangedReads, hread] using hr2

theorem statFile_ready (now : Nat) (p : Path) (o : Object) (w : World)
    (h : ReadReady w p o) :
    ∃ w1, statFile now p w = (.ok ⟨p.name, o.content.length⟩, w1) := by
  obtain ⟨ho, hb, -, hm, -⟩ := h
  obtain ⟨w1, hstat, -⟩ := statFile_coherent now p w o hb ho
    (fun e he => by rw [hm e he]; rfl)
  exact ⟨w1, hstat⟩

end Fs

namespace Fs

theorem chunk_length (c : Bytes) (m : Nat) (hm : m ≤ 9) :
    ((c.drop (m * Gzip.readOffset c.length)).take (Gzip.readSize c.length)).length
      = Gzip.readSize c.length := by
  have h1 : m * Gzip.readOffset c.length ≤ 9 * Gzip.readOffset c.length :=
    Nat.mul_le_mul_right _ hm
  simp only [List.length_take, List.length_drop]
  unfold Gzip.readOffset Gzip.readSize at *
  omega

/-- C6, counterexample. On a mount that does not pass encoded bytes through, the first
read of the ranged-read check on the gzip-encoded sample object (100 stored bytes, 10
bytes at offset 1) returns bytes of the decoded form, which differ from the stored bytes
of that range; and on a mount whose Metadata Cache holds an unexpired stale entry, stat
reports the cached size 5, not the stored size 100. -/
theorem ranged_read_differs_without_pass_through :
    (ReadChunkFromFile 0 ⟨"dir", "gz"⟩ (Gzip.readSize 100) (1 * Gzip.readOffset 100)
        decodingWorld).1 = .ok [0, 1, 1, 2, 2, 3, 3, 4, 4, 5] ∧
    (sampleContent.drop (1 * Gzip.readOffset 100)).take (Gzip.readSize 100)
      = [1, 2, 3, 4, 5, 6, 7, 8, 9, 10] ∧
    decodingWorld.backend.objects ⟨"dir", "gz"⟩ = some sampleObject ∧
    (statFile 0 ⟨"dir", "gz"⟩ staleMetadataWorld).1 = .ok ⟨"gz", 5⟩ ∧
    staleMetadataWorld.backend.objects ⟨"dir", "gz"⟩ = some sampleObject ∧
    sampleObject.content.length = 100 := by
  refine ⟨rfl, rfl, rfl, rfl, rfl, rfl⟩

/-- C6, as amended. For an object of stored size S, gzip-encoded or not, at a path the
mount is not writing, on a mount that passes encoded bytes through (any mount, when the
object is not gzip-encoded) and whose cached metadata and content for the path agree with
the object: stat reports size S; the storage client's download is the stored bytes; and
each of the five reads of the ranged-read check, made one after the other for m = 1, 3, 5,
7, 9, succeeds and returns exactly the `readSize` stored bytes at offset
`m * readOffset`, a range that lies inside the object. The same holds for each of the five
reads made on its own. -/
theorem ranged_reads_return_stored_bytes (w : World) (p : Path) (o : Object) (now : Nat)
    (h : ReadReady w p o) :
    (∃ w1, statFile now p w = (.ok ⟨p.name, o.content.length⟩, w1)) ∧
    w.backend.download p = .ok o.content ∧
    (rangedReads now p o.content.length Gzip.offsetMultipliers w).1
      = Gzip.offsetMultipliers.map (fun m =>
          .ok ((o.content.drop (m * Gzip.readOffset o.content.length)).take
            (Gzip.readSize o.content.length))) ∧
    ∀ m ∈ Gzip.offsetMultipliers,
      (∃ w1, ReadChunkFromFile now p (Gzip.readSize o.content.length)
          (m * Gzip.readOffset o.content.length) w
        = (.ok ((o.content.drop (m * Gzip.readOffset o.content.length)).take
            (Gzip.readSize o.content.length)), w1)) ∧
      ((o.content.drop (m * Gzip.readOffset o.content.length)).take
          (Gzip.readSize o.content.length)).length = Gzip.readSize o.content.length := by
  refine ⟨statFile_ready now p o w h, ?_, (rangedReads_ready now p o _ _ w h).1, ?_⟩
  · simp [Backend.download, h.1]
  · intro m hm
    obtain ⟨w1, hread, -⟩ := ReadChunkFromFile_ready now p o
      (Gzip.readSize o.content.length) (m * Gzip.readOffset o.content.length) w h
    refine ⟨⟨w1, hread⟩, chunk_length o.content m ?_⟩
    simp only [Gzip.offsetMultipliers, List.mem_cons, List.mem_singleton, List.not_mem_nil,
      or_false] at hm
    omega

theorem sampleReadWorld_ready : ReadReady sampleReadWorld ⟨"dir", "gz"⟩ sampleObject := by
  refine ⟨rfl, rfl, Or.inl rfl, ?_, ?_⟩
  · intro e he
    have he1 : some (⟨⟨100, 1, true⟩, 1000⟩ : MetadataCacheEntry) = some e := he
    cases he1
    rfl
  · intro blk hblk hg
    have hmem : blk ∈ [(⟨1, 0, sampleContent.take 15⟩ : ContentCacheBlock)] := hblk
    rw [List.mem_singleton] at hmem
    subst hmem
    rfl

/-- Witness for C6, as amended: the gzip-encoded sample object of 100 different bytes,
read through a pass-through mount whose caches already hold the object's attributes and
its first 15 bytes. The five reads return the stored bytes at offsets 1, 3, 5, 7 and 9,
ten bytes each (the first is served from the Content Cache), and stat reports 100. -/
theorem ranged_reads_return_stored_bytes_witness :
    (rangedReads 0 ⟨"dir", "gz"⟩ 100 Gzip.offsetMultipliers sampleReadWorld).1
      = [.ok [1, 2, 3, 4, 5, 6, 7, 8, 9, 10], .ok [3, 4, 5, 6, 7, 8, 9, 10, 11, 12],
         .ok [5, 6, 7, 8, 9, 10, 11, 12, 13, 14], .ok [7, 8, 9, 10, 11, 12, 13, 14, 15, 16],
         .ok [9, 10, 11, 12, 13, 14, 15, 16, 17, 18]] ∧
    (∃ w1, statFile 0 ⟨"dir", "gz"⟩ sampleReadWorld = (.ok ⟨"gz", 100⟩, w1)) ∧
    sampleReadWorld.backend.download ⟨"dir", "gz"⟩ = .ok sampleContent :=
  ⟨(ranged_reads_return_stored_bytes sampleReadWorld ⟨"dir", "gz"⟩ sampleObject 0
      sampleReadWorld_ready).2.2.1.trans rfl,
   (ranged_reads_return_stored_bytes sampleReadWorld ⟨"dir", "gz"⟩ sampleObject 0
      sampleReadWorld_ready).1,
   (ranged_reads_return_stored_bytes sampleReadWorld ⟨"dir", "gz"⟩ sampleObject 0
      sampleReadWorld_ready).2.1⟩

/-- In the world where the mount still has a WriteBuffer for a name that an outside writer
has since recreated as an unfinalized object, rename of that name fails with EIO. -/
theorem rename_with_stale_buffer_fails_with_io_error :
    (staleBufferWorld.mount.buffers ⟨"dir", "obj"⟩).isSome = true ∧
    staleBufferWorld.backend.objects ⟨"dir", "obj"⟩
      = some ⟨2, 1, [], false, some ⟨7, [1, 2, 3]⟩⟩ ∧
    (renameFile 3 ⟨"dir", "obj"⟩ ⟨"dir", "Newobj"⟩ staleBufferWorld).1
      = .error Errno.EIO := by
  refine ⟨rfl, rfl, rfl⟩

end Fs

namespace Auth

/-- On the sample network a `Token` call through the reusing source fetches the sample
token with one GET, and the next call, made while the token is valid, issues none. -/
theorem reuse_sample_run :
    (TokenSource.Token sampleLib 0
        (.reuse none (.proxy ⟨0, "https://proxy.example/token", ⟨.std⟩⟩)) sampleNet).1
      = ⟨some ⟨"tok", "Bearer", "", none⟩, none⟩ ∧
    (TokenSource.Token sampleLib 0
        (.reuse none (.proxy ⟨0, "https://proxy.example/token", ⟨.std⟩⟩)) sampleNet).2.2.served
      = [⟨.std, "https://proxy.example/token"⟩] ∧
    (TokenSource.Token sampleLib 50
        (TokenSource.Token sampleLib 0
          (.reuse none (.proxy ⟨0, "https://proxy.example/token", ⟨.std⟩⟩)) sampleNet).2.1
        (TokenSource.Token sampleLib 0
          (.reuse none (.proxy ⟨0, "https://proxy.example/token", ⟨.std⟩⟩)) sampleNet).2.2
      ).2.2.served = [⟨.std, "https://proxy.example/token"⟩] := by
  refine ⟨?_, ?_, ?_⟩ <;> decide

end Auth

/-! ### Token source: classification of the response -/

namespace Auth

theorem readAllLimit_body (r : Reader) (limit : Nat) (body : Bytes)
    (h : readAllLimit r limit = (body, none)) :
    body = r.data.take limit ∧ body.length ≤ limit := by
  unfold readAllLimit at h
  split at h
  · simp only [Prod.mk.injEq, and_true] at h
    subst h
    exact ⟨rfl, by simp [List.length_take]⟩
  · rename_i hlt
    have hle : r.data.length ≤ limit := by omega
    have hbody : body = r.data := by
      split at h
      · simp only [Prod.mk.injEq, and_true] at h
        exact h.symm
      · simp only [Prod.mk.injEq] at h
        exact h.1.symm
    subst hbody
    exact ⟨(List.take_of_length_le hle).symm, hle⟩

theorem readAllLimit_error_at_limit (r : Reader) (limit : Nat) (e : String)
    (hlen : r.data.length = limit) (hpos : 0 < limit) (herr : r.err = some e)
    (hwith : r.errWithLastBytes = true) :
    readAllLimit r limit = (r.data, some (.lib e)) := by
  unfold readAllLimit
  rw [if_neg (by omega), if_neg (by simp [hwith])]
  simp [herr]

theorem proxy_Token_load_error_at_limit (lib : Lib) (ts : proxyTokenSource) (n : Net)
    (resp : Response) (e : String)
    (hget : n.server n.served ts.request = .ok resp)
    (hlen : resp.Body.data.length = 2 ^ 20) (herr : resp.Body.err = some e)
    (hwith : resp.Body.errWithLastBytes = true) :
    (ts.Token lib n).1 = ⟨none, some (.wrap "proxyTokenSource cannot load body" (.lib e))⟩ := by
  have hread := readAllLimit_error_at_limit resp.Body (2 ^ 20) e hlen (by decide) herr hwith
  unfold proxyTokenSource.request at hget
  unfold proxyTokenSource.Token Client.Get
  simp only [hget, hread]

theorem proxy_Token_of_body (lib : Lib) (ts : proxyTokenSource) (n : Net) (resp : Response)
    (body : Bytes) (hget : n.server n.served ts.request = .ok resp)
    (hbody : readAllLimit resp.Body (2 ^ 20) = (body, none)) :
    (ts.Token lib n).1 =
      if resp.StatusCode < 200 ∨ resp.StatusCode ≥ 300 then
        ⟨none, some (.retrieve resp body)⟩
      else
        match lib.jsonUnmarshal body with
        | .error err => ⟨none, some (.wrap "proxyTokenSource cannot decode body" err)⟩
        | .ok token => ⟨some token, none⟩ := by
  unfold proxyTokenSource.request at hget
  unfold proxyTokenSource.Token Client.Get
  simp only [hget, hbody]
  split
  · rfl
  · cases lib.jsonUnmarshal body <;> rfl

theorem proxy_Token_exclusive (lib : Lib) (ts : proxyTokenSource) (n : Net) :
    ((ts.Token lib n).1.token = none ↔ (ts.Token lib n).1.err ≠ none) := by
  unfold proxyTokenSource.Token Client.Get
  cases n.server n.served ⟨ts.client.Transport, ts.endpoint⟩ with
  | error e => simp
  | ok resp =>
    dsimp only
    split
    · simp
    · split
      · simp
      · split <;> simp

/-- C11. `proxyTokenSource.Token` never returns a token and an error that are both nil or
both non-nil. When the GET is answered and the body is read without error, the body read
is the first 2^20 bytes of the stream at most, and with c the status code: the result is
a nil token with a RetrieveError exactly when c < 200 or c >= 300, and that error carries
the response and the body read; for 200 <= c < 300 the result is a non-nil token with a
nil error exactly when the body decodes, the token being the decoded one, and a nil token
with the wrapped decode error when it does not. -/
theorem Token_classifies_by_status (lib : Lib) (ts : proxyTokenSource) (n : Net) :
    ((ts.Token lib n).1.token = none ↔ (ts.Token lib n).1.err ≠ none) ∧
    ∀ (resp : Response) (body : Bytes),
      n.server n.served ts.request = .ok resp →
      readAllLimit resp.Body (2 ^ 20) = (body, none) →
      body = resp.Body.data.take (2 ^ 20) ∧ body.length ≤ 2 ^ 20 ∧
      ((resp.StatusCode < 200 ∨ resp.StatusCode ≥ 300) ↔
        ∃ r b, (ts.Token lib n).1 = ⟨none, some (.retrieve r b)⟩) ∧
      ((resp.StatusCode < 200 ∨ resp.StatusCode ≥ 300) →
        (ts.Token lib n).1 = ⟨none, some (.retrieve resp body)⟩) ∧
      (200 ≤ resp.StatusCode ∧ resp.StatusCode < 300 →
        (∀ tok, lib.jsonUnmarshal body = .ok tok ↔ (ts.Token lib n).1 = ⟨some tok, none⟩) ∧
        ((∃ tok, lib.jsonUnmarshal body = .ok tok) ↔
          ((ts.Token lib n).1.token ≠ none ∧ (ts.Token lib n).1.err = none)) ∧
        (∀ e, lib.jsonUnmarshal body = .error e →
          (ts.Token lib n).1
            = ⟨none, some (.wrap "proxyTokenSource cannot decode body" e)⟩)) := by
  refine ⟨proxy_Token_exclusive lib ts n, ?_⟩
  intro resp body hget hbody
  have hres := proxy_Token_of_body lib ts n resp body hget hbody
  obtain ⟨hb1, hb2⟩ := readAllLimit_body resp.Body (2 ^ 20) body hbody
  refine ⟨hb1, hb2, ⟨?_, ?_⟩, ?_, ?_⟩
  · intro hc
    exact ⟨resp, body, by rw [hres, if_pos hc]⟩
  · rintro ⟨r, b, hrb⟩
    by_contra hc
    rw [hres, if_neg hc] at hrb
    cases hj : lib.jsonUnmarshal body with
    | error e => rw [hj] at hrb; cases hrb
    | ok tok => rw [hj] at hrb; cases hrb
  · intro hc
    rw [hres, if_pos hc]
  · intro hc
    have hneg : ¬ (resp.StatusCode < 200 ∨ resp.StatusCode ≥ 300) := by omega
    rw [hres, if_neg hneg]
    cases hj : lib.jsonUnmarshal body with
    | error e =>
      refine ⟨?_, ?_, ?_⟩
      · intro tok
        constructor
        · intro h; cases h
        · intro h; cases h
      · constructor
        · rintro ⟨tok, h⟩; cases h
        · rintro ⟨h, -⟩; exact absurd rfl h
      · intro e1 he1
        cases he1
        rfl
    | ok tok0 =>
      refine ⟨?_, ?_, ?_⟩
      · intro tok
        constructor
        · intro h; cases h; rfl
        · intro h; cases h; rfl
      · constructor
        · intro _; exact ⟨by simp, rfl⟩
        · intro _; exact ⟨tok0, rfl⟩
      · intro e1 he1
        cases he1

/-- Witness for C11: a 404 answer with a two-byte body gives the RetrieveError carrying
the response and the body; a 200 answer whose body decodes gives the decoded token. -/
theorem Token_classifies_by_status_witness :
    ((⟨0, "https://proxy.example/token", ⟨.std⟩⟩ : proxyTokenSource).Token sampleLib
        (statusNet 404 [110, 111])).1
      = ⟨none, some (.retrieve ⟨404, ⟨[110, 111], none, false⟩⟩ [110, 111])⟩ ∧
    ((⟨0, "https://proxy.example/token", ⟨.std⟩⟩ : proxyTokenSource).Token sampleLib
        (statusNet 200 sampleBody)).1
      = ⟨some ⟨"tok", "Bearer", "", none⟩, none⟩ :=
  ⟨((Token_classifies_by_status sampleLib ⟨0, "https://proxy.example/token", ⟨.std⟩⟩
        (statusNet 404 [110, 111])).2 ⟨404, ⟨[110, 111], none, false⟩⟩ [110, 111] rfl
        (by decide)).2.2.2.1 (by decide),
   (((Token_classifies_by_status sampleLib ⟨0, "https://proxy.example/token", ⟨.std⟩⟩
        (statusNet 200 sampleBody)).2 ⟨200, ⟨sampleBody, none, false⟩⟩ sampleBody rfl
        (by decide)).2.2.2.2 (by decide)).1 ⟨"tok", "Bearer", "", none⟩ |>.1
        (by simp [sampleLib])⟩

end Auth

/-! ### Default latency buckets -/

namespace Metrics

/-- C12. The default latency bucket boundaries are 34 values, all positive, strictly
increasing (each value is below every later one), starting at 1 and ending at 100000, with
no value repeated. -/
theorem defaultLatencyDistribution_valid :
    defaultLatencyDistribution.length = 34 ∧
    (∀ x ∈ defaultLatencyDistribution, 0 < x) ∧
    defaultLatencyDistribution.Pairwise (fun x y => x < y) ∧
    defaultLatencyDistribution.head? = some 1 ∧
    defaultLatencyDistribution.getLast? = some 100000 ∧
    defaultLatencyDistribution.Nodup := by
  refine ⟨by decide, by decide, by decide, by decide, by decide, by decide⟩

end Metrics

end GcsFuse
